import Mathlib

/-!
# SPEC-1 power LED controller (`src/main.c`)

A shallow embedding of the firmware's control loop.

* The five variables that `main` keeps across loop iterations form `State`.
  The 8-bit variables are natural numbers, every `++` and `--` on them is
  taken modulo 256; the two `int16_t` counters are integers, every `--` on
  them is wrapped to sixteen bits by `wrap16`.
* One pass through the body of `while(1)` is `loopBody`.  It consumes the two
  values the pass reads from the hardware (`TMR0` at the top of the pass and
  the `MUTING_ON` pin in the condition of the muting block) and returns the
  new state together with the levels handed to `bitbang_pwm_cycle`, in order.
* `bitbang_pwm_cycle` returns the writes it performs on the `POWER_LED` pin.
  A read of `log_table` past its end has no defined value, so the function
  is fallible.

* `passEvents` is the same pass at the granularity of single statements (reads,
  assignments, calls of `bitbang_pwm_cycle`); it is proved to agree with
  `loopBody` and carries the statements about the order of actions.

The variables `_led_state` and `last_state` of `main` are never read after
their initialisation and are left out.
-/

namespace Spec1Led

/-! ## Constants and the brightness table -/

/-- `#define MAX_BRIGHTNESS 99`. -/
def MAX_BRIGHTNESS : Nat := 99

/-- `#define AC_SENSE_TICK_COUNT 10`. -/
def AC_SENSE_TICK_COUNT : Int := 10

/-- `const uint8_t log_table[100]`, entry for entry. -/
def log_table : List Nat :=
  [0, 1, 2, 3, 4, 5, 6, 7, 9, 10, 11, 12, 13, 15, 16, 17, 18, 20, 21, 22,
   24, 25, 27, 28, 30, 31, 33, 34, 36, 37, 39, 41, 42, 44, 46, 48, 49, 51,
   53, 55, 57, 59, 61, 63, 65, 67, 69, 72, 74, 76, 78, 81, 83, 85, 88, 90,
   93, 96, 98, 101, 104, 106, 109, 112, 115, 118, 121, 124, 127, 130, 133,
   137, 140, 143, 147, 150, 154, 158, 161, 165, 169, 173, 177, 181, 185, 189,
   193, 197, 202, 206, 211, 215, 220, 225, 230, 235, 240, 245, 250, 255]

/-! ## The PWM emitter -/

/-- The loop `while(period) { if(on) { POWER_LED = 1; on--; } else { POWER_LED = 0; } period--; }`
of `bitbang_pwm_cycle`: the pin writes it performs, `true` for `POWER_LED = 1`.
Both `int16_t` locals start in `0..255` and are only decremented while non-zero,
so they never leave the naturals (`onTicks` is the local `on`). -/
def pwmLoop : Nat → Nat → List Bool
  | 0, _ => []
  | period + 1, onTicks =>
    if onTicks ≠ 0 then true :: pwmLoop period (onTicks - 1)
    else false :: pwmLoop period onTicks

/-- `bitbang_pwm_cycle(bri)`: `period = MAX_BRIGHTNESS`, `on = log_table[bri]`, then the loop.
The result is `none` when `bri` indexes past the end of the table. -/
def bitbang_pwm_cycle (bri : Nat) : Option (List Bool) :=
  match log_table[bri]? with
  | none => none
  | some onTicks => some (pwmLoop MAX_BRIGHTNESS onTicks)

/-! ## The state of `main` and one pass of its loop -/

/-- The variables of `main` that live across loop iterations. -/
structure State where
  /-- `uint8_t last_timer_val` -/
  last_timer_val : Nat
  /-- `uint8_t set_brightness` -/
  set_brightness : Nat
  /-- `uint8_t led_brightness` -/
  led_brightness : Nat
  /-- `int16_t ac_sense_timeout` -/
  ac_sense_timeout : Int
  /-- `int16_t muting_counter` -/
  muting_counter : Int
deriving DecidableEq, Repr

/-- What one loop pass reads from the hardware. -/
structure Input where
  /-- the value `Read_Timer0()` returns at the top of the pass -/
  timer_val : Nat
  /-- the level of the `MUTING_ON` pin (`GPIObits.GPIO1`) when the muting block tests
  it in line 231; the code takes a high level as "mute asserted" -/
  muting_on : Bool
deriving DecidableEq, Repr

/-- Every variable holds a value of its C type. -/
def State.WF (s : State) : Prop :=
  s.last_timer_val < 256 ∧ s.set_brightness < 256 ∧ s.led_brightness < 256 ∧
  (-32768 ≤ s.ac_sense_timeout ∧ s.ac_sense_timeout < 32768) ∧
  (-32768 ≤ s.muting_counter ∧ s.muting_counter < 32768)

instance (s : State) : Decidable s.WF := by
  unfold State.WF
  infer_instance

/-- The initialisers of `main`: `set_brightness = MAX_BRIGHTNESS`, `led_brightness = 0`,
`last_timer_val = 0`, `ac_sense_timeout = 0`, `muting_counter = 500`. -/
def main_init : State :=
  { last_timer_val := 0
    set_brightness := MAX_BRIGHTNESS
    led_brightness := 0
    ac_sense_timeout := 0
    muting_counter := 500 }

/-- Reduction of an integer to the range of `int16_t` (two's complement), applied to
the result of every `--` on the two `int16_t` counters. -/
def wrap16 (x : Int) : Int := (x + 32768) % 65536 - 32768

/-- Lines 186-197: sample the pulse counter; on a change store it, set the
target to `MAX_BRIGHTNESS` and restart the timeout. -/
def acSense (s : State) (timer_val : Nat) : State :=
  if timer_val ≠ s.last_timer_val then
    { s with
      last_timer_val := timer_val
      set_brightness := MAX_BRIGHTNESS
      ac_sense_timeout := AC_SENSE_TICK_COUNT }
  else s

/-- Lines 206-212: one step of `led_brightness` towards `set_brightness`. -/
def rampStep (s : State) : State :=
  if s.led_brightness ≠ s.set_brightness then
    if s.led_brightness < s.set_brightness then
      { s with led_brightness := (s.led_brightness + 1) % 256 }
    else if s.led_brightness > s.set_brightness then
      { s with led_brightness := (s.led_brightness + 255) % 256 }
    else s
  else s

/-- Lines 221-227: count the timeout down; when it hits zero switch the target
off and hold the muting effect off. -/
def ageTimeout (s : State) : State :=
  if s.ac_sense_timeout ≠ 0 then
    let t := wrap16 (s.ac_sense_timeout - 1)
    if t = 0 then
      { s with ac_sense_timeout := t, set_brightness := 0, muting_counter := 500 }
    else
      { s with ac_sense_timeout := t }
  else s

/-- Lines 238-242: `for(uint8_t x = 0; x < 30; x++) bitbang_pwm_cycle(10 + x);`,
the levels passed, each converted to `uint8_t`. -/
def rampUpSweep : List Nat := (List.range 30).map fun x => (10 + x) % 256

/-- Lines 245-249: `for(uint8_t x = 0; x < 20; x++) bitbang_pwm_cycle(30 + (x*2));`,
the levels passed, each converted to `uint8_t`. -/
def rampDownSweep : List Nat := (List.range 20).map fun x => (30 + x * 2) % 256

/-- Lines 235-250: `for(int y = 0; y < 2; y++) { ... }`, the levels passed to
`bitbang_pwm_cycle` during one run of the muting effect. -/
def mutingEffect : List Nat := (List.range 2).flatMap fun _ => rampUpSweep ++ rampDownSweep

/-- Lines 231-256: the muting block.  Returns the new state and the levels of the
frames the block emits (none unless the effect runs). -/
def muteStep (s : State) (muting_on : Bool) : State × List Nat :=
  if muting_on ∧ s.set_brightness ≠ 0 then
    if s.muting_counter = 0 then
      ({ s with muting_counter := 300 }, mutingEffect)
    else
      ({ s with muting_counter := wrap16 (s.muting_counter - 1) }, [])
  else (s, [])

/-- One pass through the body of `while(1)`: the state after it and the levels
passed to `bitbang_pwm_cycle` during it, in order. -/
def loopBody (s : State) (i : Input) : State × List Nat :=
  let s1 := acSense s i.timer_val
  let frame := s1.led_brightness
  let s2 := rampStep s1
  let s3 := ageTimeout s2
  let r := muteStep s3 i.muting_on
  (r.1, frame :: r.2)

/-- The state after running the loop over a sequence of inputs. -/
def run (s : State) : List Input → State
  | [] => s
  | i :: rest => run (loopBody s i).1 rest

/-- The frames emitted by each pass, pass by pass. -/
def frames (s : State) : List Input → List (List Nat)
  | [] => []
  | i :: rest => (loopBody s i).2 :: frames (loopBody s i).1 rest

/-- The muting block runs the effect in this pass: the test in line 231 holds and
`muting_counter == 0` when line 233 is reached. -/
def effectRuns (s : State) (i : Input) : Prop :=
  let s3 := ageTimeout (rampStep (acSense s i.timer_val))
  i.muting_on = true ∧ s3.set_brightness ≠ 0 ∧ s3.muting_counter = 0

instance (s : State) (i : Input) : Decidable (effectRuns s i) := by
  unfold effectRuns
  infer_instance

/-- Every reading of the sequence differs from the one before it, the first one
from `last`. -/
def Changing : Nat → List Input → Prop
  | _, [] => True
  | last, i :: rest => i.timer_val ≠ last ∧ Changing i.timer_val rest

/-- Decision procedure for `Changing`. -/
def Changing.dec : (last : Nat) → (ins : List Input) → Decidable (Changing last ins)
  | _, [] => isTrue trivial
  | last, i :: rest =>
    @instDecidableAnd (i.timer_val ≠ last) (Changing i.timer_val rest) inferInstance
      (Changing.dec i.timer_val rest)

instance (last : Nat) (ins : List Input) : Decidable (Changing last ins) :=
  Changing.dec last ins

/-- An input sequence of `n` passes with mute asserted in which the counter reads
1, 0, 1, 0, ... -/
def toggling (n : Nat) : List Input :=
  (List.range n).map fun k => ⟨(k + 1) % 2, true⟩

/-- The same counter readings with the mute input low in every pass. -/
def unmuted (ins : List Input) : List Input :=
  ins.map fun i => ⟨i.timer_val, false⟩

/-! ## One pass as a sequence of actions

The same loop body at the granularity of single statements: every read of the
hardware, every assignment to one of the five variables and every call of
`bitbang_pwm_cycle`, in the order in which the source performs them. -/

/-- One action of the loop body. -/
inductive Event where
  /-- `timer_val = Read_Timer0()`, line 186 -/
  | readTimer (timer_val : Nat)
  /-- `last_timer_val = ...`, line 189 -/
  | wrLast (v : Nat)
  /-- `set_brightness = ...`, lines 192 and 224 -/
  | wrSet (v : Nat)
  /-- `ac_sense_timeout = ...` and `ac_sense_timeout--`, lines 196 and 222 -/
  | wrTimeout (v : Int)
  /-- a call `bitbang_pwm_cycle(bri)`, lines 200, 241 and 248 -/
  | pwm (bri : Nat)
  /-- `led_brightness++` and `led_brightness--`, lines 209 and 211 -/
  | wrLed (v : Nat)
  /-- the read of `MUTING_ON` in line 231 -/
  | readMuting (level : Bool)
  /-- `muting_counter = ...` and `muting_counter--`, lines 225, 252 and 254 -/
  | wrMuting (v : Int)
deriving DecidableEq, Repr

/-- The effect of one action on the variables. -/
def Event.apply (s : State) : Event → State
  | .readTimer _ => s
  | .wrLast v => { s with last_timer_val := v }
  | .wrSet v => { s with set_brightness := v }
  | .wrTimeout v => { s with ac_sense_timeout := v }
  | .pwm _ => s
  | .wrLed v => { s with led_brightness := v }
  | .readMuting _ => s
  | .wrMuting v => { s with muting_counter := v }

/-- The variables after a sequence of actions. -/
def applyAll (s : State) (es : List Event) : State := es.foldl Event.apply s

/-- The levels of the `bitbang_pwm_cycle` calls among a sequence of actions. -/
def pwmLevels : List Event → List Nat
  | [] => []
  | .pwm bri :: rest => bri :: pwmLevels rest
  | _ :: rest => pwmLevels rest

/-- Lines 186-197 as actions. -/
def sampleEvents (s : State) (timer_val : Nat) : List Event :=
  .readTimer timer_val ::
    (if timer_val ≠ s.last_timer_val then
      [.wrLast timer_val, .wrSet MAX_BRIGHTNESS, .wrTimeout AC_SENSE_TICK_COUNT]
    else [])

/-- Lines 206-212 as actions. -/
def rampEvents (s : State) : List Event :=
  if s.led_brightness ≠ s.set_brightness then
    if s.led_brightness < s.set_brightness then
      [.wrLed ((s.led_brightness + 1) % 256)]
    else if s.led_brightness > s.set_brightness then
      [.wrLed ((s.led_brightness + 255) % 256)]
    else []
  else []

/-- Lines 221-227 as actions. -/
def ageEvents (s : State) : List Event :=
  if s.ac_sense_timeout ≠ 0 then
    .wrTimeout (wrap16 (s.ac_sense_timeout - 1)) ::
      (if wrap16 (s.ac_sense_timeout - 1) = 0 then [.wrSet 0, .wrMuting 500] else [])
  else []

/-- Lines 231-256 as actions. -/
def muteEvents (s : State) (muting_on : Bool) : List Event :=
  .readMuting muting_on ::
    (if muting_on ∧ s.set_brightness ≠ 0 then
      if s.muting_counter = 0 then
        mutingEffect.map Event.pwm ++ [.wrMuting 300]
      else
        [.wrMuting (wrap16 (s.muting_counter - 1))]
    else [])

/-- The actions of one pass through the body of `while(1)`, in source order; each
block sees the variables as the actions before it have left them. -/
def passEvents (s : State) (i : Input) : List Event :=
  let e1 := sampleEvents s i.timer_val
  let s1 := applyAll s e1
  let e2 := rampEvents s1
  let s2 := applyAll s1 e2
  let e3 := ageEvents s2
  let s3 := applyAll s2 e3
  e1 ++ Event.pwm s1.led_brightness :: (e2 ++ e3 ++ muteEvents s3 i.muting_on)

/-- The invariant of the loop at pass boundaries, in executions from `main_init`:
the brightness is at most 99, the target is 0 or 99, the timeout is in `0..9`, the
muting counter is in `0..500` and is 500 whenever the target is 0, and the
brightness is 99 unless fewer than `500 - led_brightness` muting ticks have gone. -/
def Inv (s : State) : Prop :=
  s.led_brightness ≤ 99 ∧ (s.set_brightness = 0 ∨ s.set_brightness = 99) ∧
  (0 ≤ s.ac_sense_timeout ∧ s.ac_sense_timeout ≤ 9) ∧
  (0 ≤ s.muting_counter ∧ s.muting_counter ≤ 500) ∧
  (s.set_brightness = 0 → s.muting_counter = 500) ∧
  (s.led_brightness = 99 ∨ 500 ≤ (s.led_brightness : Int) + s.muting_counter)

/-- The number of time units for which a frame drives the pin high. -/
def highTicks (ws : List Bool) : Nat := ws.count true

/-- The pin writes of a sequence of `bitbang_pwm_cycle` calls, in order. -/
def pinWrites : List Nat → Option (List Bool)
  | [] => some []
  | bri :: rest =>
    match bitbang_pwm_cycle bri, pinWrites rest with
    | some ws, some more => some (ws ++ more)
    | _, _ => none

/-- The variables of the AC and ramp logic: everything but `muting_counter`. -/
def State.core (s : State) : Nat × Nat × Nat × Int :=
  (s.last_timer_val, s.set_brightness, s.led_brightness, s.ac_sense_timeout)

/-! ## Basic facts about the phases of a pass -/

theorem loopBody_led (s : State) (i : Input) :
    (loopBody s i).1.led_brightness = (rampStep (acSense s i.timer_val)).led_brightness := by
  simp only [loopBody, muteStep, ageTimeout]
  split_ifs <;> rfl

theorem acSense_led (s : State) (tv : Nat) :
    (acSense s tv).led_brightness = s.led_brightness := by
  unfold acSense
  split_ifs <;> rfl

theorem acSense_set_lt (s : State) (tv : Nat) (h : s.set_brightness < 256) :
    (acSense s tv).set_brightness < 256 := by
  unfold acSense
  split_ifs
  · simp [MAX_BRIGHTNESS]
  · exact h

theorem rampStep_led_cases (s : State) (hl : s.led_brightness < 256)
    (ht : s.set_brightness < 256) :
    (s.led_brightness < s.set_brightness →
        (rampStep s).led_brightness = s.led_brightness + 1) ∧
    (s.set_brightness < s.led_brightness →
        (rampStep s).led_brightness + 1 = s.led_brightness) ∧
    (s.led_brightness = s.set_brightness →
        (rampStep s).led_brightness = s.led_brightness) := by
  unfold rampStep
  refine ⟨fun h => ?_, fun h => ?_, fun h => ?_⟩
  · rw [if_pos (by omega), if_pos h]
    show (s.led_brightness + 1) % 256 = _
    omega
  · rw [if_pos (by omega), if_neg (by omega), if_pos h]
    show (s.led_brightness + 255) % 256 + 1 = _
    omega
  · rw [if_neg (by omega)]

/-! ## The ramp step -/

/-- Claim C1: in every loop pass, with `T` the target in force after the counter
has been sampled, the ramp step adds one to `led_brightness` when it is below
`T`, takes one off when it is above `T` and leaves it alone when it equals `T`;
the value moves by at most one and never away from `T`, and the rest of the
pass does not touch it. -/
theorem ramp_step_moves_one_toward_target (s : State) (i : Input) (hs : s.WF) :
    let T := (acSense s i.timer_val).set_brightness
    let old := s.led_brightness
    let new := (rampStep (acSense s i.timer_val)).led_brightness
    (loopBody s i).1.led_brightness = new ∧
    (old < T → new = old + 1) ∧ (T < old → new + 1 = old) ∧ (old = T → new = old) ∧
    (new ≤ old + 1 ∧ old ≤ new + 1) ∧
    (old ≤ T → old ≤ new ∧ new ≤ T) ∧ (T ≤ old → T ≤ new ∧ new ≤ old) := by
  intro T old new
  obtain ⟨-, hset, hled, -, -⟩ := hs
  have hT : (acSense s i.timer_val).set_brightness < 256 := acSense_set_lt s _ hset
  have hl : (acSense s i.timer_val).led_brightness = s.led_brightness := acSense_led s _
  have hc := rampStep_led_cases (acSense s i.timer_val) (by omega) hT
  rw [hl] at hc
  obtain ⟨h1, h2, h3⟩ := hc
  refine ⟨loopBody_led s i, h1, h2, h3, ?_, ?_, ?_⟩
  · rcases Nat.lt_trichotomy old T with h | h | h
    · have := h1 h; omega
    · have := h3 h; omega
    · have := h2 h; omega
  · intro h
    rcases Nat.lt_or_ge old T with h' | h'
    · have := h1 h'; omega
    · have := h3 (by omega); omega
  · intro h
    rcases Nat.lt_or_ge T old with h' | h'
    · have := h2 h'; omega
    · have := h3 (by omega); omega

/-- The ramp step at a state with brightness 42 and target 0: a pass that sees a
new counter value (target becomes 99) ends with brightness 43. -/
theorem ramp_step_moves_one_toward_target_witness :
    State.WF ⟨7, 0, 42, 0, 500⟩ ∧
    (loopBody ⟨7, 0, 42, 0, 500⟩ ⟨8, false⟩).1.led_brightness = 43 :=
  ⟨by decide,
   (ramp_step_moves_one_toward_target ⟨7, 0, 42, 0, 500⟩ ⟨8, false⟩ (by decide)).1.trans
     ((ramp_step_moves_one_toward_target ⟨7, 0, 42, 0, 500⟩ ⟨8, false⟩ (by decide)).2.1
       (by decide))⟩

/-! ## The muting gate with the mute input low -/

theorem rampStep_fields (s : State) :
    (rampStep s).last_timer_val = s.last_timer_val ∧
    (rampStep s).set_brightness = s.set_brightness ∧
    (rampStep s).ac_sense_timeout = s.ac_sense_timeout ∧
    (rampStep s).muting_counter = s.muting_counter := by
  unfold rampStep
  split_ifs <;> exact ⟨rfl, rfl, rfl, rfl⟩

theorem acSense_muting (s : State) (tv : Nat) :
    (acSense s tv).muting_counter = s.muting_counter := by
  unfold acSense
  split_ifs <;> rfl

theorem ageTimeout_idle (s : State) (h : s.ac_sense_timeout = 0) : ageTimeout s = s := by
  unfold ageTimeout
  rw [if_neg (by simpa using h)]

theorem ageTimeout_expire (s : State) (h : s.ac_sense_timeout ≠ 0)
    (h0 : wrap16 (s.ac_sense_timeout - 1) = 0) :
    ageTimeout s =
      { s with ac_sense_timeout := 0, set_brightness := 0, muting_counter := 500 } := by
  unfold ageTimeout
  rw [if_pos h]
  simp only [h0, if_true]

theorem ageTimeout_count (s : State) (h : s.ac_sense_timeout ≠ 0)
    (h0 : wrap16 (s.ac_sense_timeout - 1) ≠ 0) :
    ageTimeout s = { s with ac_sense_timeout := wrap16 (s.ac_sense_timeout - 1) } := by
  unfold ageTimeout
  rw [if_pos h]
  simp only [h0, if_false]

theorem muteStep_low (s : State) : muteStep s false = (s, []) := by
  simp [muteStep]

theorem loopBody_low (s : State) (tv : Nat) :
    loopBody s ⟨tv, false⟩ = (ageTimeout (rampStep (acSense s tv)), [s.led_brightness]) := by
  simp only [loopBody, muteStep_low, acSense_led]

/-- Claim C5: in a pass in which `MUTING_ON` reads low, whatever the state
(`muting_counter == 0` included), the effect does not run: the pass emits the one
frame of the current brightness, and `muting_counter` ends at 500 when the AC
timeout expires in the pass and is unchanged otherwise; it is never decremented. -/
theorem mute_low_no_effect (s : State) (tv : Nat) :
    ¬ effectRuns s ⟨tv, false⟩ ∧
    (loopBody s ⟨tv, false⟩).2 = [s.led_brightness] ∧
    (((acSense s tv).ac_sense_timeout ≠ 0 ∧
        (loopBody s ⟨tv, false⟩).1.ac_sense_timeout = 0) →
      (loopBody s ⟨tv, false⟩).1.muting_counter = 500) ∧
    (¬ ((acSense s tv).ac_sense_timeout ≠ 0 ∧
        (loopBody s ⟨tv, false⟩).1.ac_sense_timeout = 0) →
      (loopBody s ⟨tv, false⟩).1.muting_counter = s.muting_counter) := by
  have hm : (rampStep (acSense s tv)).muting_counter = s.muting_counter := by
    rw [(rampStep_fields _).2.2.2, acSense_muting]
  have ht : (rampStep (acSense s tv)).ac_sense_timeout = (acSense s tv).ac_sense_timeout :=
    (rampStep_fields _).2.2.1
  rw [loopBody_low]
  refine ⟨by simp [effectRuns], rfl, ?_, ?_⟩
  · rintro ⟨hne, h0⟩
    rw [← ht] at hne
    by_cases hw : wrap16 ((rampStep (acSense s tv)).ac_sense_timeout - 1) = 0
    · rw [ageTimeout_expire _ hne hw]
    · rw [ageTimeout_count _ hne hw] at h0
      exact absurd h0 hw
  · intro hn
    rw [← ht] at hn
    by_cases hne : (rampStep (acSense s tv)).ac_sense_timeout = 0
    · rw [ageTimeout_idle _ hne, hm]
    · by_cases hw : wrap16 ((rampStep (acSense s tv)).ac_sense_timeout - 1) = 0
      · exact absurd ⟨hne, by rw [ageTimeout_expire _ hne hw]⟩ hn
      · rw [ageTimeout_count _ hne hw]
        exact hm

/-! ## The brightness table and the PWM frame -/

theorem log_table_chain : List.Chain' (fun a b : Nat => a ≤ b) log_table := by
  simp [log_table]

theorem log_table_pairwise : List.Pairwise (fun a b : Nat => a ≤ b) log_table :=
  List.chain'_iff_pairwise.mp log_table_chain

theorem log_table_length : log_table.length = 100 := by
  decide

theorem log_table_le (L M : Nat) (hLM : L ≤ M) (hM : M < log_table.length) :
    log_table[L] ≤ log_table[M] := by
  rcases Nat.lt_or_ge L M with h | h
  · exact List.pairwise_iff_getElem.mp log_table_pairwise L M (by omega) hM h
  · have : L = M := by omega
    subst this
    exact Nat.le_refl _

/-- Claim C9: the table has exactly 100 entries, entry 0 is 0, and the entries
never decrease: for `L ≤ M ≤ 99` both entries exist and `log_table[L] ≤ log_table[M]`. -/
theorem log_table_monotone :
    log_table.length = 100 ∧ log_table[0]? = some 0 ∧
    ∀ L M : Nat, L ≤ M → M ≤ 99 →
      ∃ a b, log_table[L]? = some a ∧ log_table[M]? = some b ∧ a ≤ b := by
  refine ⟨log_table_length, by decide, fun L M hLM hM => ?_⟩
  have hM' : M < log_table.length := by rw [log_table_length]; omega
  have hL' : L < log_table.length := by omega
  exact ⟨log_table[L], log_table[M], List.getElem?_eq_getElem hL',
    List.getElem?_eq_getElem hM', log_table_le L M hLM hM'⟩

theorem pwmLoop_eq (period onTicks : Nat) :
    pwmLoop period onTicks =
      List.replicate (min onTicks period) true ++
        List.replicate (period - min onTicks period) false := by
  induction period generalizing onTicks with
  | zero => simp [pwmLoop]
  | succ p ih =>
    unfold pwmLoop
    by_cases h : onTicks = 0
    · subst h
      rw [if_neg (by simp), ih 0]
      simp [List.replicate_succ]
    · rw [if_pos h, ih (onTicks - 1)]
      have h1 : min onTicks (p + 1) = min (onTicks - 1) p + 1 := by omega
      have h2 : p + 1 - min onTicks (p + 1) = p - min (onTicks - 1) p := by omega
      rw [h2, h1, List.replicate_succ]
      rfl

/-- Claim C10: for every level `L` in `0..99`, `bitbang_pwm_cycle L` returns, and
what it returns is exactly 99 pin writes: `k` highs followed by `99 - k` lows,
where `k = min (log_table[L]) 99`.  The frame is a function of `L` alone. -/
theorem bitbang_pwm_cycle_frame (L : Nat) (hL : L ≤ 99) :
    ∃ t : Nat, log_table[L]? = some t ∧
      bitbang_pwm_cycle L =
        some (List.replicate (min t 99) true ++ List.replicate (99 - min t 99) false) ∧
      ∀ ws, bitbang_pwm_cycle L = some ws → ws.length = 99 := by
  have hL' : L < log_table.length := by rw [log_table_length]; omega
  have hget : log_table[L]? = some log_table[L] := List.getElem?_eq_getElem hL'
  have hcyc : bitbang_pwm_cycle L =
      some (List.replicate (min log_table[L] 99) true ++
        List.replicate (99 - min log_table[L] 99) false) := by
    unfold bitbang_pwm_cycle
    rw [hget]
    show some (pwmLoop MAX_BRIGHTNESS log_table[L]) = _
    rw [pwmLoop_eq]
    rfl
  refine ⟨log_table[L], hget, hcyc, fun ws hws => ?_⟩
  rw [hcyc] at hws
  cases hws
  simp only [List.length_append, List.length_replicate]
  omega

/-- Level 8, whose table entry is 9: nine highs, then ninety lows. -/
theorem bitbang_pwm_cycle_frame_witness :
    (8 : Nat) ≤ 99 ∧
    ∃ t : Nat, log_table[8]? = some t ∧
      bitbang_pwm_cycle 8 =
        some (List.replicate (min t 99) true ++ List.replicate (99 - min t 99) false) ∧
      ∀ ws, bitbang_pwm_cycle 8 = some ws → ws.length = 99 :=
  ⟨by decide, bitbang_pwm_cycle_frame 8 (by decide)⟩


/-! ## AC presence and absence -/

theorem muteStep_fields (s : State) (m : Bool) :
    (muteStep s m).1.last_timer_val = s.last_timer_val ∧
    (muteStep s m).1.set_brightness = s.set_brightness ∧
    (muteStep s m).1.led_brightness = s.led_brightness ∧
    (muteStep s m).1.ac_sense_timeout = s.ac_sense_timeout := by
  unfold muteStep
  split_ifs <;> exact ⟨rfl, rfl, rfl, rfl⟩

theorem acSense_detect (s : State) (tv : Nat) (h : tv ≠ s.last_timer_val) :
    acSense s tv =
      { s with last_timer_val := tv, set_brightness := 99, ac_sense_timeout := 10 } := by
  unfold acSense
  rw [if_pos h]
  rfl

theorem acSense_quiet (s : State) (tv : Nat) (h : tv = s.last_timer_val) :
    acSense s tv = s := by
  unfold acSense
  rw [if_neg (by simpa using h)]

theorem ageTimeout_fields (s : State) :
    (ageTimeout s).last_timer_val = s.last_timer_val ∧
    (ageTimeout s).led_brightness = s.led_brightness := by
  by_cases h : s.ac_sense_timeout = 0
  · rw [ageTimeout_idle s h]
    exact ⟨rfl, rfl⟩
  · by_cases hw : wrap16 (s.ac_sense_timeout - 1) = 0
    · rw [ageTimeout_expire s h hw]
      exact ⟨rfl, rfl⟩
    · rw [ageTimeout_count s h hw]
      exact ⟨rfl, rfl⟩

/-- What a pass does to the counter bookkeeping, the target and the timeout. -/
theorem loopBody_ac (s : State) (i : Input) :
    (i.timer_val ≠ s.last_timer_val →
      (loopBody s i).1.last_timer_val = i.timer_val ∧
      (loopBody s i).1.set_brightness = 99 ∧ (loopBody s i).1.ac_sense_timeout = 9) ∧
    (i.timer_val = s.last_timer_val →
      (loopBody s i).1.last_timer_val = s.last_timer_val ∧
      (s.ac_sense_timeout = 0 →
        (loopBody s i).1.set_brightness = s.set_brightness ∧
        (loopBody s i).1.ac_sense_timeout = 0) ∧
      (wrap16 (s.ac_sense_timeout - 1) = 0 →
        (loopBody s i).1.set_brightness = 0 ∧ (loopBody s i).1.ac_sense_timeout = 0) ∧
      (s.ac_sense_timeout ≠ 0 → wrap16 (s.ac_sense_timeout - 1) ≠ 0 →
        (loopBody s i).1.set_brightness = s.set_brightness ∧
        (loopBody s i).1.ac_sense_timeout = wrap16 (s.ac_sense_timeout - 1))) := by
  have hm := muteStep_fields (ageTimeout (rampStep (acSense s i.timer_val))) i.muting_on
  have hr := rampStep_fields (acSense s i.timer_val)
  have ha := ageTimeout_fields (rampStep (acSense s i.timer_val))
  have e1 : (loopBody s i).1.last_timer_val = (acSense s i.timer_val).last_timer_val := by
    show (muteStep _ _).1.last_timer_val = _
    rw [hm.1, ha.1, hr.1]
  have e2 : (loopBody s i).1.set_brightness =
      (ageTimeout (rampStep (acSense s i.timer_val))).set_brightness := hm.2.1
  have e3 : (loopBody s i).1.ac_sense_timeout =
      (ageTimeout (rampStep (acSense s i.timer_val))).ac_sense_timeout := hm.2.2.2
  rw [e1, e2, e3]
  constructor
  · intro h
    have ht : (rampStep (acSense s i.timer_val)).ac_sense_timeout = 10 := by
      rw [hr.2.2.1, acSense_detect s _ h]
    have hs : (rampStep (acSense s i.timer_val)).set_brightness = 99 := by
      rw [hr.2.1, acSense_detect s _ h]
    rw [ageTimeout_count _ (by rw [ht]; decide) (by rw [ht]; decide), ht]
    have h9 : wrap16 (10 - 1) = 9 := by decide
    exact ⟨by rw [acSense_detect s _ h], hs, h9⟩
  · intro h
    have ht : (rampStep (acSense s i.timer_val)).ac_sense_timeout = s.ac_sense_timeout := by
      rw [hr.2.2.1, acSense_quiet s _ h]
    have hs : (rampStep (acSense s i.timer_val)).set_brightness = s.set_brightness := by
      rw [hr.2.1, acSense_quiet s _ h]
    refine ⟨by rw [acSense_quiet s _ h], fun h0 => ?_, fun h0 => ?_, fun h0 h1 => ?_⟩
    · rw [ageTimeout_idle _ (by rw [ht]; exact h0), hs, ht]
      exact ⟨rfl, h0⟩
    · have hne : (rampStep (acSense s i.timer_val)).ac_sense_timeout ≠ 0 := by
        rw [ht]; intro h'; rw [h'] at h0; revert h0; decide
      rw [ageTimeout_expire _ hne (by rw [ht]; exact h0)]
      exact ⟨rfl, rfl⟩
    · rw [ageTimeout_count _ (by rw [ht]; exact h0) (by rw [ht]; exact h1), ht]
      exact ⟨hs, rfl⟩

theorem run_append (s : State) (a b : List Input) : run s (a ++ b) = run (run s a) b := by
  induction a generalizing s with
  | nil => rfl
  | cons i a ih => exact ih _

/-- A pass, seen from a state whose timeout is a non-negative `int16_t`, when the
counter has not moved. -/
theorem loopBody_quiet (s : State) (i : Input) (h : i.timer_val = s.last_timer_val)
    (h0 : 0 ≤ s.ac_sense_timeout) (h1 : s.ac_sense_timeout < 32768) :
    (loopBody s i).1.last_timer_val = s.last_timer_val ∧
    (loopBody s i).1.ac_sense_timeout = max (s.ac_sense_timeout - 1) 0 ∧
    (s.ac_sense_timeout ≠ 1 → (loopBody s i).1.set_brightness = s.set_brightness) ∧
    (s.ac_sense_timeout = 1 → (loopBody s i).1.set_brightness = 0) := by
  obtain ⟨hl, hz, he, hc⟩ := (loopBody_ac s i).2 h
  refine ⟨hl, ?_, ?_, ?_⟩
  · by_cases hz' : s.ac_sense_timeout = 0
    · rw [(hz hz').2, hz']; rfl
    · by_cases hw : wrap16 (s.ac_sense_timeout - 1) = 0
      · rw [(he hw).2]
        unfold wrap16 at hw
        omega
      · rw [(hc hz' hw).2]
        unfold wrap16
        omega
  · intro hne
    by_cases hz' : s.ac_sense_timeout = 0
    · exact (hz hz').1
    · refine (hc hz' ?_).1
      unfold wrap16
      omega
  · intro h1'
    refine (he ?_).1
    rw [h1']
    decide

theorem run_quiet (ins : List Input) : ∀ s : State,
    0 ≤ s.ac_sense_timeout → s.ac_sense_timeout < 32768 →
    (∀ i ∈ ins, i.timer_val = s.last_timer_val) →
    (run s ins).last_timer_val = s.last_timer_val ∧
    (run s ins).ac_sense_timeout = max (s.ac_sense_timeout - ins.length) 0 ∧
    ((s.ac_sense_timeout = 0 ∨ (ins.length : Int) < s.ac_sense_timeout) →
      (run s ins).set_brightness = s.set_brightness) ∧
    ((0 < s.ac_sense_timeout ∧ s.ac_sense_timeout ≤ ins.length) →
      (run s ins).set_brightness = 0) := by
  induction ins with
  | nil =>
    intro s h0 _ _
    refine ⟨rfl, ?_, fun _ => rfl, ?_⟩
    · show s.ac_sense_timeout = _
      simp only [List.length_nil, Nat.cast_zero]
      omega
    · rintro ⟨ha, hb⟩
      simp only [List.length_nil, Nat.cast_zero] at hb
      omega
  | cons i rest ih =>
    intro s h0 h1 hq
    obtain ⟨hl, ht, hk, he⟩ := loopBody_quiet s i (hq i (List.mem_cons_self _ _)) h0 h1
    have hq' : ∀ j ∈ rest, j.timer_val = (loopBody s i).1.last_timer_val := by
      intro j hj
      rw [hl]
      exact hq j (List.mem_cons_of_mem _ hj)
    obtain ⟨il, it, ik, ie⟩ := ih (loopBody s i).1 (by rw [ht]; omega) (by rw [ht]; omega) hq'
    show (run (loopBody s i).1 rest).last_timer_val = _ ∧
      (run (loopBody s i).1 rest).ac_sense_timeout = _ ∧
      (_ → (run (loopBody s i).1 rest).set_brightness = _) ∧
      (_ → (run (loopBody s i).1 rest).set_brightness = _)
    simp only [List.length_cons, Nat.cast_add, Nat.cast_one]
    rw [ht] at it ik ie
    refine ⟨il.trans hl, ?_, ?_, ?_⟩
    · rw [it]; omega
    · intro hc
      rw [ik (by omega)]
      exact hk (by omega)
    · rintro ⟨ha, hb⟩
      by_cases h1' : s.ac_sense_timeout = 1
      · rw [ik (by omega)]
        exact he h1'
      · exact ie (by omega)

/-- Claim C3: from any state, a pass whose counter reading differs from the stored
one restarts the timeout at 10 and sets the target to 99; if every following
reading equals the stored one, the target is 99 (and the timeout `9 - k`) at the
end of the detecting pass and of each of the next `k ≤ 8` passes, and the target
is 0 (timeout 0) at the end of the ninth pass after the detecting one. -/
theorem ac_presence_timeout_budget (s : State) (i : Input) (rest : List Input)
    (hd : i.timer_val ≠ s.last_timer_val) (hq : ∀ j ∈ rest, j.timer_val = i.timer_val) :
    (acSense s i.timer_val).ac_sense_timeout = AC_SENSE_TICK_COUNT ∧
    (acSense s i.timer_val).set_brightness = 99 ∧
    (rest.length ≤ 8 →
      (run s (i :: rest)).set_brightness = 99 ∧
      (run s (i :: rest)).ac_sense_timeout = 9 - rest.length) ∧
    (rest.length = 9 →
      (run s (i :: rest)).set_brightness = 0 ∧
      (run s (i :: rest)).ac_sense_timeout = 0) := by
  obtain ⟨hl, hs, ht⟩ := (loopBody_ac s i).1 hd
  have hq' : ∀ j ∈ rest, j.timer_val = (loopBody s i).1.last_timer_val := by
    intro j hj
    rw [hl]
    exact hq j hj
  obtain ⟨-, rt, rk, re⟩ :=
    run_quiet rest (loopBody s i).1 (by omega) (by omega) hq'
  rw [ht] at rt rk re
  rw [hs] at rk
  refine ⟨by rw [acSense_detect s _ hd]; rfl, by rw [acSense_detect s _ hd], ?_, ?_⟩
  · intro hlen
    show (run (loopBody s i).1 rest).set_brightness = 99 ∧
      (run (loopBody s i).1 rest).ac_sense_timeout = _
    refine ⟨rk (by omega), ?_⟩
    rw [rt]
    omega
  · intro hlen
    show (run (loopBody s i).1 rest).set_brightness = 0 ∧
      (run (loopBody s i).1 rest).ac_sense_timeout = 0
    refine ⟨re (by omega), ?_⟩
    rw [rt]
    omega

/-- A detection at power-on followed by nine passes with the counter at rest:
the target is 0 after the ninth. -/
theorem ac_presence_timeout_budget_witness :
    (run main_init (⟨1, false⟩ :: List.replicate 9 ⟨1, false⟩)).set_brightness = 0 ∧
    (run main_init (⟨1, false⟩ :: List.replicate 8 ⟨1, false⟩)).set_brightness = 99 :=
  ⟨((ac_presence_timeout_budget main_init ⟨1, false⟩ (List.replicate 9 ⟨1, false⟩)
      (by decide) (by decide)).2.2.2 (by decide)).1,
   ((ac_presence_timeout_budget main_init ⟨1, false⟩ (List.replicate 8 ⟨1, false⟩)
      (by decide) (by decide)).2.2.1 (by decide)).1⟩

/-- After a detection the target and the timeout move together: either the target
is 99 and the timeout is in `1..9`, or both are 0. -/
theorem detected_inv_step (s : State) (i : Input)
    (h : (s.set_brightness = 99 ∧ 1 ≤ s.ac_sense_timeout ∧ s.ac_sense_timeout ≤ 9) ∨
      (s.set_brightness = 0 ∧ s.ac_sense_timeout = 0)) :
    ((loopBody s i).1.set_brightness = 99 ∧ 1 ≤ (loopBody s i).1.ac_sense_timeout ∧
        (loopBody s i).1.ac_sense_timeout ≤ 9) ∨
      ((loopBody s i).1.set_brightness = 0 ∧ (loopBody s i).1.ac_sense_timeout = 0) := by
  by_cases hd : i.timer_val = s.last_timer_val
  · have h0 : 0 ≤ s.ac_sense_timeout := by omega
    have h1 : s.ac_sense_timeout < 32768 := by omega
    obtain ⟨-, ht, hk, he⟩ := loopBody_quiet s i hd h0 h1
    rw [ht]
    by_cases h1' : s.ac_sense_timeout = 1
    · right
      exact ⟨he h1', by omega⟩
    · rw [hk h1']
      omega
  · obtain ⟨-, hs, ht⟩ := (loopBody_ac s i).1 hd
    left
    omega

theorem detected_inv_run (ins : List Input) : ∀ s : State,
    ((s.set_brightness = 99 ∧ 1 ≤ s.ac_sense_timeout ∧ s.ac_sense_timeout ≤ 9) ∨
      (s.set_brightness = 0 ∧ s.ac_sense_timeout = 0)) →
    (((run s ins).set_brightness = 99 ∧ 1 ≤ (run s ins).ac_sense_timeout ∧
        (run s ins).ac_sense_timeout ≤ 9) ∨
      ((run s ins).set_brightness = 0 ∧ (run s ins).ac_sense_timeout = 0)) := by
  induction ins with
  | nil => exact fun s h => h
  | cons i rest ih => exact fun s h => ih _ (detected_inv_step s i h)

/-- Claim C2, as the code has it: once a counter change has been detected in an
execution from power-on, whenever the reading then equals the stored reading for
`N ≥ 10` passes in a row the target is 0 after them (so it is 0 after the tenth
and after every later pass for as long as the reading stays put). -/
theorem ac_absence_after_detection (before : List Input) (d : Input) (after ins : List Input)
    (hd : d.timer_val ≠ (run main_init before).last_timer_val)
    (hN : 10 ≤ ins.length)
    (hq : ∀ i ∈ ins, i.timer_val = (run main_init (before ++ d :: after)).last_timer_val) :
    (run (run main_init (before ++ d :: after)) ins).set_brightness = 0 := by
  obtain ⟨-, hs, ht⟩ := (loopBody_ac (run main_init before) d).1 hd
  have hinv := detected_inv_run after (loopBody (run main_init before) d).1
    (Or.inl ⟨hs, by omega, by omega⟩)
  have hrun : run main_init (before ++ d :: after) =
      run (loopBody (run main_init before) d).1 after := by
    rw [run_append]
    rfl
  rw [hrun] at hq ⊢
  obtain ⟨-, -, rk, re⟩ := run_quiet ins _ (by omega) (by omega) hq
  rcases hinv with ⟨-, h1, h9⟩ | ⟨h0, hz⟩
  · exact re ⟨by omega, by omega⟩
  · rw [rk (Or.inl hz)]
    exact h0

/-- A detection at power-on, then ten passes with the counter at rest. -/
theorem ac_absence_after_detection_witness :
    (run (run main_init ([] ++ (⟨1, false⟩ : Input) :: []))
      (List.replicate 10 ⟨1, false⟩)).set_brightness = 0 :=
  ac_absence_after_detection [] ⟨1, false⟩ [] (List.replicate 10 ⟨1, false⟩)
    (by decide) (by decide) (by decide)

/-- Claim C2 as written fails at the power-on state itself: `ac_sense_timeout` is 0
there, so with the counter at rest (reading 0, the stored value) the countdown
never runs and the target is still 99 after ten passes. -/
theorem ac_absence_fails_at_power_on :
    run main_init [] = main_init ∧
    (10 ≤ (List.replicate 10 (Input.mk 0 false)).length) ∧
    (∀ i ∈ List.replicate 10 (Input.mk 0 false), i.timer_val = main_init.last_timer_val) ∧
    (run main_init (List.replicate 10 ⟨0, false⟩)).set_brightness = 99 ∧
    (run main_init (List.replicate 10 ⟨0, false⟩)).set_brightness ≠ 0 := by
  refine ⟨rfl, by decide, by decide, ?_, ?_⟩
  · have h := run_quiet (List.replicate 10 ⟨0, false⟩) main_init (by decide) (by decide)
      (by decide)
    exact h.2.2.1 (Or.inl rfl)
  · have h := run_quiet (List.replicate 10 ⟨0, false⟩) main_init (by decide) (by decide)
      (by decide)
    rw [h.2.2.1 (Or.inl rfl)]
    decide

/-! ## The phases of a pass as arithmetic facts -/

theorem acSense_arith (s : State) (tv : Nat) :
    (acSense s tv).led_brightness = s.led_brightness ∧
    (acSense s tv).muting_counter = s.muting_counter ∧
    (((acSense s tv).set_brightness = 99 ∧ (acSense s tv).ac_sense_timeout = 10) ∨
      ((acSense s tv).set_brightness = s.set_brightness ∧
        (acSense s tv).ac_sense_timeout = s.ac_sense_timeout)) := by
  refine ⟨acSense_led s tv, acSense_muting s tv, ?_⟩
  by_cases h : tv = s.last_timer_val
  · rw [acSense_quiet s tv h]
    exact Or.inr ⟨rfl, rfl⟩
  · rw [acSense_detect s tv h]
    exact Or.inl ⟨rfl, rfl⟩

theorem rampStep_arith (s : State) (hl : s.led_brightness < 256)
    (ht : s.set_brightness < 256) :
    (s.led_brightness < s.set_brightness ∧
        (rampStep s).led_brightness = s.led_brightness + 1) ∨
    (s.set_brightness < s.led_brightness ∧
        (rampStep s).led_brightness + 1 = s.led_brightness) ∨
    (s.led_brightness = s.set_brightness ∧
        (rampStep s).led_brightness = s.led_brightness) := by
  obtain ⟨h1, h2, h3⟩ := rampStep_led_cases s hl ht
  rcases Nat.lt_trichotomy s.led_brightness s.set_brightness with h | h | h
  · exact Or.inl ⟨h, h1 h⟩
  · exact Or.inr (Or.inr ⟨h, h3 h⟩)
  · exact Or.inr (Or.inl ⟨h, h2 h⟩)

theorem ageTimeout_arith (s : State) (h0 : 0 ≤ s.ac_sense_timeout)
    (h1 : s.ac_sense_timeout < 32768) :
    (s.ac_sense_timeout = 0 ∧ (ageTimeout s).ac_sense_timeout = 0 ∧
      (ageTimeout s).set_brightness = s.set_brightness ∧
      (ageTimeout s).muting_counter = s.muting_counter) ∨
    (s.ac_sense_timeout = 1 ∧ (ageTimeout s).ac_sense_timeout = 0 ∧
      (ageTimeout s).set_brightness = 0 ∧ (ageTimeout s).muting_counter = 500) ∨
    (2 ≤ s.ac_sense_timeout ∧ (ageTimeout s).ac_sense_timeout = s.ac_sense_timeout - 1 ∧
      (ageTimeout s).set_brightness = s.set_brightness ∧
      (ageTimeout s).muting_counter = s.muting_counter) := by
  by_cases hz : s.ac_sense_timeout = 0
  · rw [ageTimeout_idle s hz]
    exact Or.inl ⟨hz, hz, rfl, rfl⟩
  · by_cases hw : wrap16 (s.ac_sense_timeout - 1) = 0
    · rw [ageTimeout_expire s hz hw]
      refine Or.inr (Or.inl ⟨?_, rfl, rfl, rfl⟩)
      unfold wrap16 at hw
      omega
    · rw [ageTimeout_count s hz hw]
      have hv : wrap16 (s.ac_sense_timeout - 1) = s.ac_sense_timeout - 1 := by
        unfold wrap16
        omega
      refine Or.inr (Or.inr ⟨?_, hv, rfl, rfl⟩)
      rw [hv] at hw
      omega

theorem muteStep_arith (s : State) (m : Bool) (h0 : 0 ≤ s.muting_counter)
    (h1 : s.muting_counter < 32768) :
    (¬ (m = true ∧ s.set_brightness ≠ 0) ∧ muteStep s m = (s, [])) ∨
    ((m = true ∧ s.set_brightness ≠ 0) ∧ s.muting_counter = 0 ∧
      muteStep s m = ({ s with muting_counter := 300 }, mutingEffect)) ∨
    ((m = true ∧ s.set_brightness ≠ 0) ∧ 0 < s.muting_counter ∧
      muteStep s m = ({ s with muting_counter := s.muting_counter - 1 }, [])) := by
  unfold muteStep
  by_cases hg : m = true ∧ s.set_brightness ≠ 0
  · rw [if_pos hg]
    by_cases hc : s.muting_counter = 0
    · rw [if_pos hc]
      exact Or.inr (Or.inl ⟨hg, hc, rfl⟩)
    · rw [if_neg hc]
      have hv : wrap16 (s.muting_counter - 1) = s.muting_counter - 1 := by
        unfold wrap16
        omega
      rw [hv]
      exact Or.inr (Or.inr ⟨hg, by omega, rfl⟩)
  · rw [if_neg hg]
    exact Or.inl ⟨hg, rfl⟩

theorem muteStep_counter (s : State) (m : Bool) (h0 : 0 ≤ s.muting_counter)
    (h1 : s.muting_counter < 32768) :
    (s.set_brightness = 0 → (muteStep s m).1.muting_counter = s.muting_counter) ∧
    ((muteStep s m).1.muting_counter = s.muting_counter ∨
      (s.muting_counter = 0 ∧ (muteStep s m).1.muting_counter = 300) ∨
      (0 < s.muting_counter ∧ (muteStep s m).1.muting_counter = s.muting_counter - 1)) := by
  rcases muteStep_arith s m h0 h1 with ⟨hg, he⟩ | ⟨hg, hc, he⟩ | ⟨hg, hc, he⟩
  · rw [he]
    exact ⟨fun _ => rfl, Or.inl rfl⟩
  · rw [he]
    exact ⟨fun hs => absurd hs hg.2, Or.inr (Or.inl ⟨hc, rfl⟩)⟩
  · rw [he]
    exact ⟨fun hs => absurd hs hg.2, Or.inr (Or.inr ⟨hc, rfl⟩)⟩

theorem inv_step (s : State) (i : Input) (h : Inv s) : Inv (loopBody s i).1 := by
  obtain ⟨hled, hset, ⟨ht0, ht9⟩, ⟨hm0, hm5⟩, hoff, hj⟩ := h
  obtain ⟨a1, a2, a3⟩ := acSense_arith s i.timer_val
  obtain ⟨r1, r2, r3, r4⟩ := rampStep_fields (acSense s i.timer_val)
  have r5 := rampStep_arith (acSense s i.timer_val) (by omega) (by omega)
  have g1 := ageTimeout_fields (rampStep (acSense s i.timer_val))
  have g2 := ageTimeout_arith (rampStep (acSense s i.timer_val)) (by omega) (by omega)
  obtain ⟨m1, m2, m3, m4⟩ :=
    muteStep_fields (ageTimeout (rampStep (acSense s i.timer_val))) i.muting_on
  obtain ⟨m5, m6⟩ :=
    muteStep_counter (ageTimeout (rampStep (acSense s i.timer_val))) i.muting_on
      (by omega) (by omega)
  show Inv (muteStep (ageTimeout (rampStep (acSense s i.timer_val))) i.muting_on).1
  unfold Inv
  rw [m2, m3, m4, g1.2]
  refine ⟨by omega, by omega, by omega, by omega, ?_, by omega⟩
  intro hz
  have := m5 hz
  omega

theorem inv_init : Inv main_init := by
  unfold Inv main_init MAX_BRIGHTNESS
  decide

theorem inv_run (ins : List Input) : ∀ s : State, Inv s → Inv (run s ins) := by
  induction ins with
  | nil => exact fun s h => h
  | cons i rest ih => exact fun s h => ih _ (inv_step s i h)

theorem ageTimeout_set_muting (s : State) :
    ((ageTimeout s).set_brightness = 0 ∧ (ageTimeout s).muting_counter = 500) ∨
    ((ageTimeout s).set_brightness = s.set_brightness ∧
      (ageTimeout s).muting_counter = s.muting_counter) := by
  by_cases hz : s.ac_sense_timeout = 0
  · rw [ageTimeout_idle s hz]
    exact Or.inr ⟨rfl, rfl⟩
  · by_cases hw : wrap16 (s.ac_sense_timeout - 1) = 0
    · rw [ageTimeout_expire s hz hw]
      exact Or.inl ⟨rfl, rfl⟩
    · rw [ageTimeout_count s hz hw]
      exact Or.inr ⟨rfl, rfl⟩

theorem loopBody_frames_idle (s : State) (i : Input) (h : ¬ effectRuns s i) :
    (loopBody s i).2 = [s.led_brightness] := by
  have hgoal : (muteStep (ageTimeout (rampStep (acSense s i.timer_val))) i.muting_on).2 = [] := by
    unfold muteStep
    by_cases hg : i.muting_on = true ∧
        (ageTimeout (rampStep (acSense s i.timer_val))).set_brightness ≠ 0
    · rw [if_pos hg]
      by_cases hc : (ageTimeout (rampStep (acSense s i.timer_val))).muting_counter = 0
      · exact absurd ⟨hg.1, hg.2, hc⟩ h
      · rw [if_neg hc]
    · rw [if_neg hg]
  show (acSense s i.timer_val).led_brightness :: (muteStep _ _).2 = _
  rw [hgoal, acSense_led]

theorem loopBody_frames_effect (s : State) (i : Input) (h : effectRuns s i) :
    (loopBody s i).2 = s.led_brightness :: mutingEffect ∧
    (loopBody s i).1.muting_counter = 300 := by
  obtain ⟨h1, h2, h3⟩ := h
  have hstep : muteStep (ageTimeout (rampStep (acSense s i.timer_val))) i.muting_on =
      ({ ageTimeout (rampStep (acSense s i.timer_val)) with muting_counter := 300 },
        mutingEffect) := by
    unfold muteStep
    rw [if_pos ⟨h1, h2⟩, if_pos h3]
  constructor
  · show (acSense s i.timer_val).led_brightness :: (muteStep _ _).2 = _
    rw [hstep, acSense_led]
  · show (muteStep _ _).1.muting_counter = 300
    rw [hstep]

/-! ## The muting gate -/

/-- Claim C6: in an execution from power-on, a pass that begins or ends with the
target at 0 does not run the muting effect, whatever the counter reading and the
mute level: it emits the one frame of the current brightness.  (A pass that
re-detects AC begins with `muting_counter = 500`, so the effect cannot fire in it.) -/
theorem mute_gate_power_off (ins : List Input) (i : Input)
    (h : (run main_init ins).set_brightness = 0 ∨
      (loopBody (run main_init ins) i).1.set_brightness = 0) :
    ¬ effectRuns (run main_init ins) i ∧
    (loopBody (run main_init ins) i).2 = [(run main_init ins).led_brightness] := by
  have hinv : Inv (run main_init ins) := inv_run ins main_init inv_init
  have hno : ¬ effectRuns (run main_init ins) i := by
    rintro ⟨-, e2, e3⟩
    rcases h with h | h
    · have hm : (run main_init ins).muting_counter = 500 := hinv.2.2.2.2.1 h
      have a2 := (acSense_arith (run main_init ins) i.timer_val).2.1
      have r4 := (rampStep_fields (acSense (run main_init ins) i.timer_val)).2.2.2
      rcases ageTimeout_set_muting (rampStep (acSense (run main_init ins) i.timer_val))
        with ⟨g1, -⟩ | ⟨-, g2⟩
      · exact e2 g1
      · omega
    · have m2 := (muteStep_fields
        (ageTimeout (rampStep (acSense (run main_init ins) i.timer_val))) i.muting_on).2.1
      exact e2 (m2.symm.trans h)
  exact ⟨hno, loopBody_frames_idle _ i hno⟩

set_option maxRecDepth 20000 in
/-- Power lost after one detection (target 0 after ten passes); the next pass
re-detects AC with mute asserted and emits a single frame. -/
theorem mute_gate_power_off_witness :
    (run main_init (List.replicate 10 ⟨1, true⟩)).set_brightness = 0 ∧
    ¬ effectRuns (run main_init (List.replicate 10 ⟨1, true⟩)) ⟨2, true⟩ ∧
    (loopBody (run main_init (List.replicate 10 ⟨1, true⟩)) ⟨2, true⟩).2 =
      [(run main_init (List.replicate 10 ⟨1, true⟩)).led_brightness] :=
  ⟨by decide, mute_gate_power_off (List.replicate 10 ⟨1, true⟩) ⟨2, true⟩ (Or.inl (by decide))⟩

/-- Claim C4: in an execution from power-on, whenever a pass runs the muting effect
(mute asserted, target non-zero, `muting_counter == 0`), the brightness is
`MAX_BRIGHTNESS` both at the start of the pass and when the effect starts, and the
target is `MAX_BRIGHTNESS`: the effect never starts during a ramp. -/
theorem effect_only_at_full_brightness (ins : List Input) (i : Input)
    (h : effectRuns (run main_init ins) i) :
    (run main_init ins).led_brightness = MAX_BRIGHTNESS ∧
    (ageTimeout (rampStep (acSense (run main_init ins) i.timer_val))).led_brightness
      = MAX_BRIGHTNESS ∧
    (ageTimeout (rampStep (acSense (run main_init ins) i.timer_val))).set_brightness
      = MAX_BRIGHTNESS ∧
    (loopBody (run main_init ins) i).1.led_brightness = MAX_BRIGHTNESS := by
  obtain ⟨hled, hset, ⟨ht0, ht9⟩, ⟨hm0, hm5⟩, hoff, hj⟩ := inv_run ins main_init inv_init
  obtain ⟨-, e2, e3⟩ := h
  obtain ⟨a1, a2, a3⟩ := acSense_arith (run main_init ins) i.timer_val
  obtain ⟨-, r2, r3, r4⟩ := rampStep_fields (acSense (run main_init ins) i.timer_val)
  have r5 := rampStep_arith (acSense (run main_init ins) i.timer_val) (by omega) (by omega)
  have g1 := (ageTimeout_fields (rampStep (acSense (run main_init ins) i.timer_val))).2
  have hl := loopBody_led (run main_init ins) i
  unfold MAX_BRIGHTNESS
  rcases ageTimeout_set_muting (rampStep (acSense (run main_init ins) i.timer_val))
    with ⟨g2, -⟩ | ⟨g2, g3⟩
  · exact absurd g2 e2
  · refine ⟨by omega, by omega, by omega, by omega⟩

theorem loopBody_mute_on (s : State) (i : Input) (hm : i.muting_on = true)
    (hset : (loopBody s i).1.set_brightness ≠ 0) (h0 : 0 ≤ s.muting_counter)
    (h1 : s.muting_counter < 32768) :
    (s.muting_counter = 0 →
      (loopBody s i).1.muting_counter = 300 ∧
      (loopBody s i).2 = s.led_brightness :: mutingEffect) ∧
    (0 < s.muting_counter →
      (loopBody s i).1.muting_counter = s.muting_counter - 1 ∧
      (loopBody s i).2 = [s.led_brightness]) := by
  have m2 := (muteStep_fields (ageTimeout (rampStep (acSense s i.timer_val))) i.muting_on).2.1
  have hset3 : (ageTimeout (rampStep (acSense s i.timer_val))).set_brightness ≠ 0 :=
    fun h => hset (m2.trans h)
  have hmut3 : (ageTimeout (rampStep (acSense s i.timer_val))).muting_counter =
      s.muting_counter := by
    rcases ageTimeout_set_muting (rampStep (acSense s i.timer_val)) with ⟨g, -⟩ | ⟨-, g⟩
    · exact absurd g hset3
    · rw [g, (rampStep_fields _).2.2.2, acSense_muting]
  constructor
  · intro hz
    have he : effectRuns s i := ⟨hm, hset3, hmut3.trans hz⟩
    exact ⟨(loopBody_frames_effect s i he).2, (loopBody_frames_effect s i he).1⟩
  · intro hp
    have hne : ¬ effectRuns s i := by
      rintro ⟨-, -, e3⟩
      rw [hmut3] at e3
      omega
    refine ⟨?_, loopBody_frames_idle s i hne⟩
    rcases muteStep_arith (ageTimeout (rampStep (acSense s i.timer_val))) i.muting_on
      (by omega) (by omega) with ⟨hg, -⟩ | ⟨-, hc, -⟩ | ⟨-, -, he⟩
    · exact absurd ⟨hm, hset3⟩ hg
    · omega
    · show (muteStep _ _).1.muting_counter = _
      rw [he]
      exact congrArg (fun z => z - 1) hmut3

theorem effectRuns_of_idle (s : State) (i : Input) (hq : i.timer_val = s.last_timer_val)
    (hm : i.muting_on = true) (ht : s.ac_sense_timeout = 0) (hs : s.set_brightness ≠ 0)
    (hc : s.muting_counter = 0) : effectRuns s i := by
  have e : ageTimeout (rampStep (acSense s i.timer_val)) = rampStep s := by
    rw [acSense_quiet s _ hq, ageTimeout_idle _ ((rampStep_fields s).2.2.1.trans ht)]
  refine ⟨hm, ?_, ?_⟩
  · show (ageTimeout (rampStep (acSense s i.timer_val))).set_brightness ≠ 0
    rw [e, (rampStep_fields s).2.1]
    exact hs
  · show (ageTimeout (rampStep (acSense s i.timer_val))).muting_counter = 0
    rw [e, (rampStep_fields s).2.2.2]
    exact hc

/-- With the counter at rest, no timeout running and mute asserted, each pass
takes one tick off the muting counter. -/
theorem run_rest_muted (n : Nat) : ∀ s : State,
    s.ac_sense_timeout = 0 → s.set_brightness = 99 →
    (n : Int) ≤ s.muting_counter → s.muting_counter < 32768 →
    (run s (List.replicate n ⟨s.last_timer_val, true⟩)).last_timer_val = s.last_timer_val ∧
    (run s (List.replicate n ⟨s.last_timer_val, true⟩)).set_brightness = 99 ∧
    (run s (List.replicate n ⟨s.last_timer_val, true⟩)).ac_sense_timeout = 0 ∧
    (run s (List.replicate n ⟨s.last_timer_val, true⟩)).muting_counter =
      s.muting_counter - n := by
  induction n with
  | zero =>
    intro s ht hs _ _
    exact ⟨rfl, hs, ht, by simp [run]⟩
  | succ n ih =>
    intro s ht hs hn h1
    obtain ⟨hl, hz, -, -⟩ := (loopBody_ac s ⟨s.last_timer_val, true⟩).2 rfl
    obtain ⟨hs', ht'⟩ := hz ht
    have hmu := (loopBody_mute_on s ⟨s.last_timer_val, true⟩ rfl (by rw [hs', hs]; decide)
      (by omega) h1).2 (by omega)
    have := ih (loopBody s ⟨s.last_timer_val, true⟩).1 ht' (hs'.trans hs)
      (by rw [hmu.1]; push_cast at hn; omega) (by rw [hmu.1]; omega)
    rw [hl] at this
    obtain ⟨i1, i2, i3, i4⟩ := this
    show (run (loopBody s ⟨s.last_timer_val, true⟩).1 (List.replicate n _)).last_timer_val = _
      ∧ (run (loopBody s ⟨s.last_timer_val, true⟩).1 (List.replicate n _)).set_brightness = _
      ∧ (run (loopBody s ⟨s.last_timer_val, true⟩).1 (List.replicate n _)).ac_sense_timeout = _
      ∧ (run (loopBody s ⟨s.last_timer_val, true⟩).1 (List.replicate n _)).muting_counter = _
    refine ⟨i1, i2, i3, ?_⟩
    rw [i4, hmu.1]
    push_cast
    omega

/-- From power-on with the counter at rest and mute asserted, the muting counter
reaches 0 after 500 passes and pass 501 runs the effect, at brightness 99. -/
theorem effect_only_at_full_brightness_witness :
    effectRuns (run main_init (List.replicate 500 ⟨0, true⟩)) ⟨0, true⟩ ∧
    (run main_init (List.replicate 500 ⟨0, true⟩)).led_brightness = MAX_BRIGHTNESS :=
  have h : effectRuns (run main_init (List.replicate 500 ⟨0, true⟩)) ⟨0, true⟩ :=
    have r :
        (run main_init (List.replicate 500 ⟨0, true⟩)).last_timer_val = 0 ∧
        (run main_init (List.replicate 500 ⟨0, true⟩)).set_brightness = 99 ∧
        (run main_init (List.replicate 500 ⟨0, true⟩)).ac_sense_timeout = 0 ∧
        (run main_init (List.replicate 500 ⟨0, true⟩)).muting_counter = 500 - (500 : Nat) :=
      run_rest_muted 500 main_init rfl rfl (by decide) (by decide)
    effectRuns_of_idle _ _ r.1.symm rfl r.2.2.1 (by rw [r.2.1]; decide)
      (r.2.2.2.trans (by decide))
  ⟨h, (effect_only_at_full_brightness (List.replicate 500 ⟨0, true⟩) ⟨0, true⟩ h).1⟩

/-! ## The muting effect -/

theorem rampUpSweep_eq : rampUpSweep =
    [10, 11, 12, 13, 14, 15, 16, 17, 18, 19, 20, 21, 22, 23, 24, 25, 26, 27, 28, 29,
     30, 31, 32, 33, 34, 35, 36, 37, 38, 39] := by
  decide

theorem rampDownSweep_eq : rampDownSweep =
    [30, 32, 34, 36, 38, 40, 42, 44, 46, 48, 50, 52, 54, 56, 58, 60, 62, 64, 66, 68] := by
  decide

theorem mutingEffect_eq :
    mutingEffect = (rampUpSweep ++ rampDownSweep) ++ (rampUpSweep ++ rampDownSweep) := by
  simp [mutingEffect, List.range, List.range.loop, List.flatMap]

/-- Claim C7 against the code: in a pass that runs the effect (mute asserted, target
and brightness 99, `muting_counter == 0`) the levels passed to `bitbang_pwm_cycle`
after the pass's own frame are two repetitions of the sweep `10, 11, ..., 39`
followed by the sweep `30, 32, ..., 68`.  The first sweep rises strictly; the
second, which the source comments as "Ramp down", rises strictly as well and is
not a falling sweep. -/
theorem muting_effect_second_sweep_rises :
    (loopBody ⟨0, 99, 99, 0, 0⟩ ⟨0, true⟩).2 =
      99 :: ((rampUpSweep ++ rampDownSweep) ++ (rampUpSweep ++ rampDownSweep)) ∧
    rampUpSweep = [10, 11, 12, 13, 14, 15, 16, 17, 18, 19, 20, 21, 22, 23, 24, 25, 26, 27,
      28, 29, 30, 31, 32, 33, 34, 35, 36, 37, 38, 39] ∧
    rampDownSweep = [30, 32, 34, 36, 38, 40, 42, 44, 46, 48, 50, 52, 54, 56, 58, 60, 62, 64,
      66, 68] ∧
    List.Pairwise (fun a b : Nat => a < b) rampUpSweep ∧
    List.Pairwise (fun a b : Nat => a < b) rampDownSweep ∧
    ¬ List.Chain' (fun a b : Nat => b ≤ a) rampDownSweep := by
  refine ⟨?_, rampUpSweep_eq, rampDownSweep_eq, ?_, ?_, ?_⟩
  · rw [← mutingEffect_eq]
    exact (loopBody_frames_effect _ _ (by decide)).1
  · refine List.chain'_iff_pairwise.mp ?_
    rw [rampUpSweep_eq]
    simp
  · refine List.chain'_iff_pairwise.mp ?_
    rw [rampDownSweep_eq]
    simp
  · rw [rampDownSweep_eq]
    simp

/-! ## The repeat interval of the muting effect -/

theorem changing_append_last (ins : List Input) (fin : Input) : ∀ s : State,
    Changing s.last_timer_val (ins ++ [fin]) →
    Changing s.last_timer_val ins ∧ fin.timer_val ≠ (run s ins).last_timer_val := by
  induction ins with
  | nil => exact fun s h => ⟨trivial, h.1⟩
  | cons i rest ih =>
    intro s h
    obtain ⟨hi, hrest⟩ := h
    have hl := ((loopBody_ac s i).1 hi).1
    rw [← hl] at hrest
    obtain ⟨h1, h2⟩ := ih (loopBody s i).1 hrest
    rw [hl] at h1
    exact ⟨⟨hi, h1⟩, h2⟩

theorem changing_take (ins : List Input) : ∀ (last k : Nat),
    Changing last ins → Changing last (ins.take k) := by
  induction ins with
  | nil => intro last k h; simpa using h
  | cons i rest ih =>
    intro last k h
    cases k with
    | zero => exact trivial
    | succ k => exact ⟨h.1, ih i.timer_val k h.2⟩

/-- A pass that sees a new counter value at full brightness with mute asserted. -/
theorem loopBody_changing_full (s : State) (i : Input) (hd : i.timer_val ≠ s.last_timer_val)
    (hl : s.led_brightness = 99) :
    (loopBody s i).1.last_timer_val = i.timer_val ∧
    (loopBody s i).1.set_brightness = 99 ∧
    (loopBody s i).1.led_brightness = 99 := by
  obtain ⟨a1, a2, -⟩ := (loopBody_ac s i).1 hd
  refine ⟨a1, a2, ?_⟩
  have hset : (acSense s i.timer_val).set_brightness = 99 := by
    rw [acSense_detect s _ hd]
  have hr := (rampStep_led_cases (acSense s i.timer_val) (by rw [acSense_led]; omega)
    (by rw [hset]; decide)).2.2 (by rw [acSense_led, hl, hset])
  rw [loopBody_led, hr, acSense_led, hl]

theorem run_changing_muted (ins : List Input) : ∀ s : State,
    s.set_brightness = 99 → s.led_brightness = 99 →
    Changing s.last_timer_val ins → (∀ i ∈ ins, i.muting_on = true) →
    (ins.length : Int) ≤ s.muting_counter → s.muting_counter < 32768 →
    frames s ins = List.replicate ins.length [99] ∧
    (run s ins).muting_counter = s.muting_counter - ins.length ∧
    (run s ins).set_brightness = 99 ∧ (run s ins).led_brightness = 99 := by
  induction ins with
  | nil =>
    intro s hs hl _ _ _ _
    exact ⟨rfl, by simp [run], hs, hl⟩
  | cons i rest ih =>
    intro s hs hl hch hmu hlen h1
    simp only [List.length_cons, Nat.cast_add, Nat.cast_one] at hlen ⊢
    obtain ⟨b1, b2, b3⟩ := loopBody_changing_full s i hch.1 hl
    obtain ⟨c1, c2⟩ := (loopBody_mute_on s i (hmu i (List.mem_cons_self _ _))
      (by rw [b2]; decide) (by omega) h1).2 (by omega)
    have hch' : Changing (loopBody s i).1.last_timer_val rest := by
      rw [b1]
      exact hch.2
    obtain ⟨i1, i2, i3, i4⟩ := ih (loopBody s i).1 b2 b3 hch'
      (fun j hj => hmu j (List.mem_cons_of_mem _ hj)) (by omega) (by omega)
    refine ⟨?_, ?_, i3, i4⟩
    · show (loopBody s i).2 :: frames (loopBody s i).1 rest = _
      rw [i1, c2, hl, List.replicate_succ]
    · show (run (loopBody s i).1 rest).muting_counter = _
      rw [i2, c1]
      omega

/-- Claim C8: from a state with target 99, brightness 99 and `muting_counter = 300`,
with mute asserted and the counter reading changing in every pass, each of the
next 300 passes emits the single frame of level 99 and takes one off
`muting_counter`; pass 301 emits its frame followed by one complete run of the
effect, two repetitions of a 30-frame and a 20-frame sweep, 100 frames in all,
and ends with `muting_counter = 300`, target 99 and brightness 99. -/
theorem mute_repeat_scenario (s : State) (ins : List Input) (fin : Input)
    (hset : s.set_brightness = 99) (hled : s.led_brightness = 99)
    (hcnt : s.muting_counter = 300) (hlen : ins.length = 300)
    (hch : Changing s.last_timer_val (ins ++ [fin]))
    (hmu : ∀ i ∈ ins ++ [fin], i.muting_on = true) :
    frames s ins = List.replicate 300 [99] ∧
    (∀ k : Nat, k ≤ 300 → (run s (ins.take k)).muting_counter = 300 - k) ∧
    (loopBody (run s ins) fin).2 = 99 :: mutingEffect ∧
    mutingEffect = (rampUpSweep ++ rampDownSweep) ++ (rampUpSweep ++ rampDownSweep) ∧
    rampUpSweep.length = 30 ∧ rampDownSweep.length = 20 ∧ mutingEffect.length = 100 ∧
    (run s (ins ++ [fin])).muting_counter = 300 ∧
    (run s (ins ++ [fin])).set_brightness = 99 ∧
    (run s (ins ++ [fin])).led_brightness = 99 := by
  obtain ⟨hch1, hfin⟩ := changing_append_last ins fin s hch
  have hmu1 : ∀ i ∈ ins, i.muting_on = true := fun i hi =>
    hmu i (List.mem_append_left _ hi)
  have hmufin : fin.muting_on = true := hmu fin (by simp)
  obtain ⟨f1, f2, f3, f4⟩ := run_changing_muted ins s hset hled hch1 hmu1
    (by rw [hlen, hcnt]; decide) (by rw [hcnt]; decide)
  rw [hlen] at f1
  rw [hlen, hcnt] at f2
  obtain ⟨g1, g2, g3⟩ := loopBody_changing_full (run s ins) fin hfin f4
  obtain ⟨e1, e2⟩ := (loopBody_mute_on (run s ins) fin hmufin (by rw [g2]; decide)
    (by rw [f2]; decide) (by rw [f2]; decide)).1 (by rw [f2]; decide)
  have hrun : run s (ins ++ [fin]) = (loopBody (run s ins) fin).1 := by
    rw [run_append]
    rfl
  refine ⟨f1, ?_, by rw [e2, f4], mutingEffect_eq, by decide, by decide, by decide,
    by rw [hrun, e1], by rw [hrun, g2], by rw [hrun, g3]⟩
  intro k hk
  have hk' : (ins.take k).length = k := by
    rw [List.length_take, hlen]
    omega
  obtain ⟨-, t2, -, -⟩ := run_changing_muted (ins.take k) s hset hled
    (changing_take ins _ k hch1) (fun i hi => hmu1 i (List.mem_of_mem_take hi))
    (by rw [hk', hcnt]; omega) (by rw [hcnt]; decide)
  rw [t2, hk', hcnt]

set_option maxRecDepth 100000 in
/-- The scenario with the counter toggling between 1 and 0: 300 single-frame
passes, then the effect, and the counter back at 300. -/
theorem mute_repeat_scenario_witness :
    frames ⟨0, 99, 99, 0, 300⟩ (toggling 300) = List.replicate 300 [99] ∧
    (loopBody (run ⟨0, 99, 99, 0, 300⟩ (toggling 300)) ⟨1, true⟩).2 = 99 :: mutingEffect ∧
    (run ⟨0, 99, 99, 0, 300⟩ (toggling 300 ++ [⟨1, true⟩])).muting_counter = 300 :=
  have h := mute_repeat_scenario ⟨0, 99, 99, 0, 300⟩ (toggling 300) ⟨1, true⟩ rfl rfl rfl
    (by simp [toggling]) (by decide)
    (by
      intro i hi
      simp only [toggling, List.mem_append, List.mem_map, List.mem_singleton] at hi
      rcases hi with ⟨a, -, rfl⟩ | rfl <;> rfl)
  ⟨h.1, h.2.2.1, h.2.2.2.2.2.2.2.1⟩

/-! ## The on-duration of a frame -/

theorem bitbang_pwm_cycle_eq (L : Nat) (hL : L < log_table.length) :
    bitbang_pwm_cycle L =
      some (List.replicate (min log_table[L] 99) true ++
        List.replicate (99 - min log_table[L] 99) false) := by
  unfold bitbang_pwm_cycle
  rw [List.getElem?_eq_getElem hL]
  show some (pwmLoop MAX_BRIGHTNESS log_table[L]) = _
  rw [pwmLoop_eq]
  rfl

theorem log_table_at (L t : Nat) (h : log_table[L]? = some t) (hL : L < log_table.length) :
    log_table[L] = t := by
  rw [List.getElem?_eq_getElem hL] at h
  exact Option.some.inj h

theorem highTicks_frame (k n : Nat) :
    highTicks (List.replicate k true ++ List.replicate n false) = k := by
  simp [highTicks, List.count_replicate]

/-- Claim C11, as the code has it: for every level `L` in `0..99` the frame drives
the pin high for `min (log_table[L]) 99` time units.  That is the table value
itself for `L ≤ 58`; for `L` in `59..99` the table value exceeds the 99-tick frame
and the pin is high for all 99 ticks. -/
theorem on_duration_clamped (L : Nat) (hL : L ≤ 99) :
    ∃ t ws, log_table[L]? = some t ∧ bitbang_pwm_cycle L = some ws ∧
      highTicks ws = min t 99 ∧
      (L ≤ 58 → highTicks ws = t) ∧
      (59 ≤ L → 99 < t ∧ highTicks ws = 99) := by
  have hL' : L < log_table.length := by rw [log_table_length]; omega
  have h58 : (58 : Nat) < log_table.length := by rw [log_table_length]; decide
  have h59 : (59 : Nat) < log_table.length := by rw [log_table_length]; decide
  have e58 : log_table[58] = 98 := log_table_at 58 98 (by decide) h58
  have e59 : log_table[59] = 101 := log_table_at 59 101 (by decide) h59
  refine ⟨log_table[L], _, List.getElem?_eq_getElem hL', bitbang_pwm_cycle_eq L hL', ?_, ?_, ?_⟩
  · exact highTicks_frame _ _
  · intro h
    have := log_table_le L 58 h h58
    rw [highTicks_frame]
    omega
  · intro h
    have := log_table_le 59 L h hL'
    rw [highTicks_frame]
    omega

/-- Level 8, table value 9: the pin is high for nine ticks. -/
theorem on_duration_clamped_witness :
    ∃ t ws, log_table[8]? = some t ∧ bitbang_pwm_cycle 8 = some ws ∧
      highTicks ws = min t 99 ∧
      (8 ≤ 58 → highTicks ws = t) ∧
      (59 ≤ 8 → 99 < t ∧ highTicks ws = 99) :=
  on_duration_clamped 8 (by decide)

/-- Claim C11 as written fails at level 59: the table value is 101, the frame has
99 ticks and the pin is high for 99 of them. -/
theorem on_duration_differs_at_59 :
    log_table[59]? = some 101 ∧
    (bitbang_pwm_cycle 59).map highTicks = some 99 ∧
    (bitbang_pwm_cycle 59).map highTicks ≠ log_table[59]? := by
  have h59 : (59 : Nat) < log_table.length := by rw [log_table_length]; decide
  have e59 : log_table[59] = 101 := log_table_at 59 101 (by decide) h59
  have hc : (bitbang_pwm_cycle 59).map highTicks = some 99 := by
    rw [bitbang_pwm_cycle_eq 59 h59, Option.map_some', highTicks_frame, e59]
    rfl
  refine ⟨by decide, hc, ?_⟩
  rw [hc]
  decide

/-! ## Static endpoints -/

theorem pinWrites_single (bri : Nat) (ws : List Bool) (h : bitbang_pwm_cycle bri = some ws) :
    pinWrites [bri] = some ws := by
  simp [pinWrites, h]

theorem bitbang_pwm_cycle_zero : bitbang_pwm_cycle 0 = some (List.replicate 99 false) := by
  have h0 : (0 : Nat) < log_table.length := by rw [log_table_length]; decide
  have e0 : log_table[0] = 0 := log_table_at 0 0 (by decide) h0
  rw [bitbang_pwm_cycle_eq 0 h0, e0]
  rfl

theorem bitbang_pwm_cycle_full : bitbang_pwm_cycle 99 = some (List.replicate 99 true) := by
  have h99 : (99 : Nat) < log_table.length := by rw [log_table_length]; decide
  have e99 : log_table[99] = 255 := log_table_at 99 255 (by decide) h99
  rw [bitbang_pwm_cycle_eq 99 h99, e99]
  simp

/-- Claim C12: the frame of level 0 is 99 low writes and the frame of level 99 is
99 high writes; hence a pass that starts with brightness 0 (respectively 99) and
does not run the muting effect writes the pin low (respectively high) 99 times
and nothing else, so the output does not toggle. -/
theorem static_endpoints :
    bitbang_pwm_cycle 0 = some (List.replicate 99 false) ∧
    bitbang_pwm_cycle 99 = some (List.replicate 99 true) ∧
    (∀ (s : State) (i : Input), s.led_brightness = 0 → ¬ effectRuns s i →
      pinWrites (loopBody s i).2 = some (List.replicate 99 false)) ∧
    (∀ (s : State) (i : Input), s.led_brightness = 99 → ¬ effectRuns s i →
      pinWrites (loopBody s i).2 = some (List.replicate 99 true)) := by
  refine ⟨bitbang_pwm_cycle_zero, bitbang_pwm_cycle_full, ?_, ?_⟩
  · intro s i hl hne
    rw [loopBody_frames_idle s i hne, hl]
    exact pinWrites_single 0 _ bitbang_pwm_cycle_zero
  · intro s i hl hne
    rw [loopBody_frames_idle s i hne, hl]
    exact pinWrites_single 99 _ bitbang_pwm_cycle_full

/-! ## Bounds on the brightness -/

theorem run_snoc (s : State) (ins : List Input) (i : Input) :
    run s (ins ++ [i]) = (loopBody (run s ins) i).1 := by
  rw [run_append]
  rfl

theorem loopBody_led_near (s : State) (i : Input) (hl : s.led_brightness < 256)
    (hs : s.set_brightness < 256) :
    (loopBody s i).1.led_brightness ≤ s.led_brightness + 1 ∧
    s.led_brightness ≤ (loopBody s i).1.led_brightness + 1 := by
  have h1 := acSense_led s i.timer_val
  have h2 := acSense_set_lt s i.timer_val hs
  have h3 := rampStep_arith (acSense s i.timer_val) (by omega) h2
  rw [loopBody_led]
  omega

/-- Claim C13: in every execution from power-on, whatever the counter readings and
mute levels, `led_brightness` is at most 99 at every pass boundary and differs
from its value one pass earlier by at most 1; the 8-bit variable never wraps. -/
theorem brightness_bounds (ins : List Input) (i : Input) :
    (run main_init ins).led_brightness ≤ 99 ∧
    (run main_init (ins ++ [i])).led_brightness ≤ 99 ∧
    (run main_init (ins ++ [i])).led_brightness ≤ (run main_init ins).led_brightness + 1 ∧
    (run main_init ins).led_brightness ≤ (run main_init (ins ++ [i])).led_brightness + 1 := by
  have h1 := inv_run ins main_init inv_init
  have h2 := inv_run (ins ++ [i]) main_init inv_init
  obtain ⟨hled, hset, -⟩ := h1
  have h3 := loopBody_led_near (run main_init ins) i (by omega) (by omega)
  rw [run_snoc]
  rw [run_snoc] at h2
  exact ⟨hled, h2.1, h3.1, h3.2⟩

/-! ## The power-up and power-down ramps -/

theorem run_changing_ramp (ins : List Input) : ∀ s : State,
    s.led_brightness ≤ 99 → s.set_brightness = 99 → Changing s.last_timer_val ins →
    (run s ins).led_brightness = min (s.led_brightness + ins.length) 99 ∧
    (run s ins).set_brightness = 99 := by
  induction ins with
  | nil =>
    intro s hl hs _
    refine ⟨?_, hs⟩
    show s.led_brightness = _
    simp only [List.length_nil]
    omega
  | cons i rest ih =>
    intro s hl hs hch
    obtain ⟨a1, a2, -⟩ := (loopBody_ac s i).1 hch.1
    have hset : (acSense s i.timer_val).set_brightness = 99 := by
      rw [acSense_detect s _ hch.1]
    have hled := acSense_led s i.timer_val
    have hr := rampStep_arith (acSense s i.timer_val) (by omega) (by omega)
    have hb := loopBody_led s i
    have hch' : Changing (loopBody s i).1.last_timer_val rest := by
      rw [a1]
      exact hch.2
    obtain ⟨i1, i2⟩ := ih (loopBody s i).1 (by omega) a2 hch'
    refine ⟨?_, i2⟩
    show (run (loopBody s i).1 rest).led_brightness = _
    rw [i1]
    simp only [List.length_cons]
    omega

/-- Claim C14: from power-on, if the counter reading changes in every pass, then
whatever the mute levels the brightness after `k` passes is `min k 99` and the
target is 99: the brightness ramps from 0 to 99 in 99 passes and holds there. -/
theorem power_up_ramp (ins : List Input) (h : Changing main_init.last_timer_val ins) :
    (run main_init ins).led_brightness = min ins.length 99 ∧
    (run main_init ins).set_brightness = 99 := by
  obtain ⟨h1, h2⟩ := run_changing_ramp ins main_init (by decide) rfl h
  refine ⟨?_, h2⟩
  rw [h1]
  show min (0 + ins.length) 99 = _
  rw [Nat.zero_add]

set_option maxRecDepth 100000 in
/-- The power-up ramp with the counter toggling: brightness 50 after 50 passes, 99
after 120. -/
theorem power_up_ramp_witness :
    (run main_init (toggling 50)).led_brightness = 50 ∧
    (run main_init (toggling 120)).led_brightness = 99 :=
  ⟨(power_up_ramp (toggling 50) (by decide)).1.trans (by simp [toggling]),
   (power_up_ramp (toggling 120) (by decide)).1.trans (by simp [toggling])⟩

theorem run_quiet_off (ins : List Input) : ∀ s : State,
    s.set_brightness = 0 → s.ac_sense_timeout = 0 → s.led_brightness ≤ 99 →
    (∀ i ∈ ins, i.timer_val = s.last_timer_val) →
    (run s ins).led_brightness = s.led_brightness - ins.length ∧
    (run s ins).set_brightness = 0 ∧ (run s ins).ac_sense_timeout = 0 := by
  induction ins with
  | nil => exact fun s hs ht _ _ => ⟨rfl, hs, ht⟩
  | cons i rest ih =>
    intro s hs ht hl hq
    have hi := hq i (List.mem_cons_self _ _)
    obtain ⟨a1, a2, -, -⟩ := (loopBody_ac s i).2 hi
    obtain ⟨b1, b2⟩ := a2 ht
    have hr := rampStep_arith s (by omega) (by omega)
    have hb := loopBody_led s i
    rw [acSense_quiet s _ hi] at hb
    have hq' : ∀ j ∈ rest, j.timer_val = (loopBody s i).1.last_timer_val := by
      intro j hj
      rw [a1]
      exact hq j (List.mem_cons_of_mem _ hj)
    obtain ⟨i1, i2, i3⟩ := ih (loopBody s i).1 (b1.trans hs) b2 (by omega) hq'
    refine ⟨?_, i2, i3⟩
    show (run (loopBody s i).1 rest).led_brightness = _
    rw [i1]
    simp only [List.length_cons]
    omega

/-- Claim C15: from any state with target 0, AC timeout 0 and brightness `x ≤ 99`,
if the counter reading stays at the stored value for `n` passes then, whatever
the mute levels, the brightness after them is `x - n` cut off at 0 and the
target is still 0: the brightness reaches 0 within 99 passes and holds there. -/
theorem power_down_ramp (s : State) (ins : List Input)
    (hs : s.set_brightness = 0) (ht : s.ac_sense_timeout = 0) (hx : s.led_brightness ≤ 99)
    (hq : ∀ i ∈ ins, i.timer_val = s.last_timer_val) :
    (run s ins).led_brightness = max (s.led_brightness - (ins.length : Int)) 0 ∧
    (run s ins).set_brightness = 0 ∧
    (99 ≤ ins.length → (run s ins).led_brightness = 0) := by
  obtain ⟨h1, h2, -⟩ := run_quiet_off ins s hs ht hx hq
  refine ⟨?_, h2, ?_⟩
  · rw [h1]
    omega
  · intro hn
    rw [h1]
    omega

set_option maxRecDepth 100000 in
/-- The power-down ramp from brightness 99 with mute asserted: 59 after 40 passes. -/
theorem power_down_ramp_witness :
    ((run ⟨3, 0, 99, 0, 500⟩ (List.replicate 40 ⟨3, true⟩)).led_brightness : Int) =
      max (99 - 40) 0 :=
  (power_down_ramp ⟨3, 0, 99, 0, 500⟩ (List.replicate 40 ⟨3, true⟩) rfl rfl (by decide)
    (by decide)).1.trans (by simp)

/-! ## The mute input does not reach the AC and ramp logic -/

theorem acSense_core (s t : State) (tv : Nat) (h : s.core = t.core) :
    (acSense s tv).core = (acSense t tv).core := by
  have hl : s.last_timer_val = t.last_timer_val := congrArg (fun c => c.1) h
  have hd : s.led_brightness = t.led_brightness := congrArg (fun c => c.2.2.1) h
  by_cases hq : tv = s.last_timer_val
  · rw [acSense_quiet s tv hq, acSense_quiet t tv (hq.trans hl)]
    exact h
  · rw [acSense_detect s tv hq, acSense_detect t tv (fun e => hq (e.trans hl.symm))]
    show (tv, 99, s.led_brightness, (10 : Int)) = (tv, 99, t.led_brightness, (10 : Int))
    rw [hd]

theorem rampStep_core (s t : State) (h : s.core = t.core) :
    (rampStep s).core = (rampStep t).core := by
  have hl : s.last_timer_val = t.last_timer_val := congrArg (fun c => c.1) h
  have hs : s.set_brightness = t.set_brightness := congrArg (fun c => c.2.1) h
  have hd : s.led_brightness = t.led_brightness := congrArg (fun c => c.2.2.1) h
  have ht : s.ac_sense_timeout = t.ac_sense_timeout := congrArg (fun c => c.2.2.2) h
  have hled : (rampStep s).led_brightness = (rampStep t).led_brightness := by
    unfold rampStep
    rw [hs, hd]
    split_ifs <;> first | rfl | exact hd
  obtain ⟨a1, a2, a3, -⟩ := rampStep_fields s
  obtain ⟨b1, b2, b3, -⟩ := rampStep_fields t
  show ((rampStep s).last_timer_val, (rampStep s).set_brightness, (rampStep s).led_brightness,
    (rampStep s).ac_sense_timeout) = ((rampStep t).last_timer_val, (rampStep t).set_brightness,
    (rampStep t).led_brightness, (rampStep t).ac_sense_timeout)
  rw [a1, a2, a3, b1, b2, b3, hled, hl, hs, ht]

theorem ageTimeout_core (s t : State) (h : s.core = t.core) :
    (ageTimeout s).core = (ageTimeout t).core := by
  have ht : s.ac_sense_timeout = t.ac_sense_timeout := congrArg (fun c => c.2.2.2) h
  have hl : s.last_timer_val = t.last_timer_val := congrArg (fun c => c.1) h
  have hd : s.led_brightness = t.led_brightness := congrArg (fun c => c.2.2.1) h
  by_cases hz : s.ac_sense_timeout = 0
  · rw [ageTimeout_idle s hz, ageTimeout_idle t (ht.symm.trans hz)]
    exact h
  · have hz' : t.ac_sense_timeout ≠ 0 := fun e => hz (ht.trans e)
    by_cases hw : wrap16 (s.ac_sense_timeout - 1) = 0
    · rw [ageTimeout_expire s hz hw, ageTimeout_expire t hz' (by rw [← ht]; exact hw)]
      show (s.last_timer_val, 0, s.led_brightness, (0 : Int)) =
        (t.last_timer_val, 0, t.led_brightness, (0 : Int))
      rw [hl, hd]
    · rw [ageTimeout_count s hz hw, ageTimeout_count t hz' (by rw [← ht]; exact hw)]
      have hs : s.set_brightness = t.set_brightness := congrArg (fun c => c.2.1) h
      show (s.last_timer_val, s.set_brightness, s.led_brightness,
        wrap16 (s.ac_sense_timeout - 1)) = (t.last_timer_val, t.set_brightness,
        t.led_brightness, wrap16 (t.ac_sense_timeout - 1))
      rw [hl, hs, hd, ht]

theorem muteStep_core (s : State) (m : Bool) : (muteStep s m).1.core = s.core := by
  obtain ⟨a1, a2, a3, a4⟩ := muteStep_fields s m
  show ((muteStep s m).1.last_timer_val, (muteStep s m).1.set_brightness,
    (muteStep s m).1.led_brightness, (muteStep s m).1.ac_sense_timeout) = _
  rw [a1, a2, a3, a4]
  rfl

theorem loopBody_core (s t : State) (i j : Input) (h : s.core = t.core)
    (hr : i.timer_val = j.timer_val) :
    (loopBody s i).1.core = (loopBody t j).1.core ∧
    (loopBody s i).2.head? = (loopBody t j).2.head? := by
  constructor
  · show (muteStep _ _).1.core = (muteStep _ _).1.core
    rw [muteStep_core, muteStep_core, hr]
    exact ageTimeout_core _ _ (rampStep_core _ _ (acSense_core _ _ _ h))
  · show some (acSense s i.timer_val).led_brightness = some (acSense t j.timer_val).led_brightness
    rw [acSense_led, acSense_led]
    exact congrArg (fun c => some c.2.2.1) h

theorem run_core (ins1 : List Input) : ∀ (ins2 : List Input) (s t : State),
    s.core = t.core → ins1.map Input.timer_val = ins2.map Input.timer_val →
    (run s ins1).core = (run t ins2).core ∧
    (frames s ins1).map List.head? = (frames t ins2).map List.head? := by
  induction ins1 with
  | nil =>
    intro ins2 s t h hr
    cases ins2 with
    | nil => exact ⟨h, rfl⟩
    | cons j rest => simp at hr
  | cons i rest ih =>
    intro ins2 s t h hr
    cases ins2 with
    | nil => simp at hr
    | cons j rest2 =>
      simp only [List.map_cons, List.cons.injEq] at hr
      obtain ⟨c1, c2⟩ := loopBody_core s t i j h hr.1
      obtain ⟨i1, i2⟩ := ih rest2 (loopBody s i).1 (loopBody t j).1 c1 hr.2
      refine ⟨i1, ?_⟩
      show (loopBody s i).2.head? :: (frames (loopBody s i).1 rest).map List.head? =
        (loopBody t j).2.head? :: (frames (loopBody t j).1 rest2).map List.head?
      rw [c2, i2]

/-- Claim C16: two executions from the same state that receive the same counter
readings, pass by pass, but any mute levels agree after every pass on
`last_timer_val`, `set_brightness`, `led_brightness` and `ac_sense_timeout`, and
on the first frame of every pass; the mute input reaches only `muting_counter`
and the frames of the effect. -/
theorem mute_noninterference (s : State) (ins1 ins2 : List Input)
    (h : ins1.map Input.timer_val = ins2.map Input.timer_val) :
    (∀ k : Nat, (run s (ins1.take k)).core = (run s (ins2.take k)).core) ∧
    (frames s ins1).map List.head? = (frames s ins2).map List.head? := by
  refine ⟨fun k => ?_, (run_core ins1 ins2 s s rfl h).2⟩
  have hk : (ins1.take k).map Input.timer_val = (ins2.take k).map Input.timer_val := by
    rw [List.map_take, List.map_take, h]
  exact (run_core _ _ s s rfl hk).1

/-- Twelve passes from power-on with the counter toggling, once with mute asserted
throughout and once with mute never asserted, compared after five passes. -/
theorem mute_noninterference_witness :
    (toggling 12).map Input.timer_val = (unmuted (toggling 12)).map Input.timer_val ∧
    (run main_init ((toggling 12).take 5)).core =
      (run main_init ((unmuted (toggling 12)).take 5)).core :=
  ⟨by simp [unmuted, List.map_map, Function.comp_def],
   (mute_noninterference main_init (toggling 12) (unmuted (toggling 12))
    (by simp [unmuted, List.map_map, Function.comp_def])).1 5⟩

/-! ## Counter bookkeeping -/

theorem loopBody_last (s : State) (i : Input) :
    (loopBody s i).1.last_timer_val = i.timer_val := by
  by_cases h : i.timer_val = s.last_timer_val
  · rw [((loopBody_ac s i).2 h).1, h]
  · exact ((loopBody_ac s i).1 h).1

theorem run_last (ins : List Input) (s : State) :
    (run s ins).last_timer_val = ((ins.getLast?).map Input.timer_val).getD s.last_timer_val := by
  rcases List.eq_nil_or_concat ins with h | ⟨front, i, h⟩
  · subst h
    rfl
  · subst h
    rw [List.concat_eq_append, run_snoc, loopBody_last]
    simp

/-- Claim C18: after every pass `last_timer_val` is the reading sampled in that
pass, so in an execution from power-on the stored value is the previous pass's
reading (0 before the first pass) and the detection branch is taken exactly when
the reading differs from it; the test is plain inequality, so a step from 255 to
0 is a change like any other. -/
theorem counter_bookkeeping :
    (∀ (s : State) (i : Input), (loopBody s i).1.last_timer_val = i.timer_val) ∧
    (∀ ins : List Input, (run main_init ins).last_timer_val =
      ((ins.getLast?).map Input.timer_val).getD 0) ∧
    (∀ (ins : List Input) (i : Input),
      ((acSense (run main_init ins) i.timer_val).ac_sense_timeout = AC_SENSE_TICK_COUNT ↔
        i.timer_val ≠ ((ins.getLast?).map Input.timer_val).getD 0)) ∧
    (∀ (s : State) (tv : Nat), tv ≠ s.last_timer_val →
      acSense s tv =
        { s with last_timer_val := tv, set_brightness := 99, ac_sense_timeout := 10 }) ∧
    (∀ (s : State) (tv : Nat), tv = s.last_timer_val → acSense s tv = s) ∧
    acSense ⟨255, 0, 0, 0, 500⟩ 0 = ⟨0, 99, 0, 10, 500⟩ := by
  refine ⟨loopBody_last, fun ins => run_last ins main_init, fun ins i => ?_,
    acSense_detect, acSense_quiet, by decide⟩
  have hl : (run main_init ins).last_timer_val =
      ((ins.getLast?).map Input.timer_val).getD 0 := run_last ins main_init
  obtain ⟨-, -, ⟨-, ht9⟩, -⟩ := inv_run ins main_init inv_init
  rw [← hl]
  constructor
  · intro h10 hq
    rw [acSense_quiet _ _ hq] at h10
    rw [h10] at ht9
    revert ht9
    decide
  · intro hne
    rw [acSense_detect _ _ hne]
    rfl

/-! ## Table index safety -/

theorem mutingEffect_le : ∀ l ∈ mutingEffect, l ≤ 68 := by
  rw [mutingEffect_eq, rampUpSweep_eq, rampDownSweep_eq]
  decide

theorem bitbang_pwm_cycle_isSome (l : Nat) (h : l < 100) :
    (bitbang_pwm_cycle l).isSome = true := by
  rw [bitbang_pwm_cycle_eq l (by rw [log_table_length]; exact h)]
  rfl

theorem loopBody_frames_lt (s : State) (i : Input) (h : s.led_brightness ≤ 99) :
    ∀ l ∈ (loopBody s i).2, l < 100 := by
  intro l hl
  by_cases he : effectRuns s i
  · rw [(loopBody_frames_effect s i he).1] at hl
    rcases List.mem_cons.mp hl with e | e
    · omega
    · have := mutingEffect_le l e
      omega
  · rw [loopBody_frames_idle s i he] at hl
    have : l = s.led_brightness := by simpa using hl
    omega

theorem frames_lt (ins : List Input) : ∀ s : State, Inv s →
    ∀ fs ∈ frames s ins, ∀ l ∈ fs, l < 100 := by
  induction ins with
  | nil =>
    intro s _ fs hfs
    simp [frames] at hfs
  | cons i rest ih =>
    intro s hs fs hfs
    rcases List.mem_cons.mp hfs with e | e
    · rw [e]
      exact loopBody_frames_lt s i hs.1
    · exact ih (loopBody s i).1 (inv_step s i hs) fs e

/-- Claim C19: in every execution from power-on every level passed to
`bitbang_pwm_cycle`, the per-pass call and the calls of the effect alike, is
below 100, so the read of `log_table` is inside the table and the call returns;
the 8-bit expressions `10 + x` and `30 + x*2` of the effect stay below 256 (their
largest value is 68). -/
theorem table_index_safe (ins : List Input) :
    (∀ fs ∈ frames main_init ins, ∀ l ∈ fs,
      l < 100 ∧ (bitbang_pwm_cycle l).isSome = true) ∧
    rampUpSweep = (List.range 30).map (fun x => 10 + x) ∧
    rampDownSweep = (List.range 20).map (fun x => 30 + x * 2) ∧
    (∀ l ∈ mutingEffect, l ≤ 68) := by
  refine ⟨fun fs hfs l hl => ?_, by decide, by decide, mutingEffect_le⟩
  have h := frames_lt ins main_init inv_init fs hfs l hl
  exact ⟨h, bitbang_pwm_cycle_isSome l h⟩

/-! ## The timers and the target -/

theorem detected_inv_split (before : List Input) (d : Input) (after : List Input)
    (hd : d.timer_val ≠ (run main_init before).last_timer_val) :
    ((run main_init (before ++ d :: after)).set_brightness = 99 ∧
        1 ≤ (run main_init (before ++ d :: after)).ac_sense_timeout ∧
        (run main_init (before ++ d :: after)).ac_sense_timeout ≤ 9) ∨
      ((run main_init (before ++ d :: after)).set_brightness = 0 ∧
        (run main_init (before ++ d :: after)).ac_sense_timeout = 0) := by
  obtain ⟨-, hs, ht⟩ := (loopBody_ac (run main_init before) d).1 hd
  have hrun : run main_init (before ++ d :: after) =
      run (loopBody (run main_init before) d).1 after := by
    rw [run_append]
    rfl
  rw [hrun]
  exact detected_inv_run after _ (Or.inl ⟨hs, by omega, by omega⟩)

/-- Claim C20: in every execution from power-on, at every pass boundary the target
is 0 or 99, the AC timeout is in `0..9`, the muting counter is in `0..500` (so
neither counter goes below zero), a target of 0 comes with a muting counter of
500, and once a counter change has been detected the target is 99 exactly when the
timeout is positive. -/
theorem timer_target_invariant (ins : List Input) :
    ((run main_init ins).set_brightness = 0 ∨ (run main_init ins).set_brightness = 99) ∧
    (0 ≤ (run main_init ins).ac_sense_timeout ∧ (run main_init ins).ac_sense_timeout ≤ 9) ∧
    (0 ≤ (run main_init ins).muting_counter ∧ (run main_init ins).muting_counter ≤ 500) ∧
    ((run main_init ins).set_brightness = 0 → (run main_init ins).muting_counter = 500) ∧
    (∀ (before : List Input) (d : Input) (after : List Input),
      ins = before ++ d :: after →
      d.timer_val ≠ (run main_init before).last_timer_val →
      ((run main_init ins).set_brightness = 99 ↔ 0 < (run main_init ins).ac_sense_timeout)) := by
  obtain ⟨-, hset, ht, hm, hoff, -⟩ := inv_run ins main_init inv_init
  refine ⟨hset, ht, hm, hoff, ?_⟩
  intro before d after hsplit hd
  subst hsplit
  rcases detected_inv_split before d after hd with ⟨h1, h2, h3⟩ | ⟨h1, h2⟩
  · exact ⟨fun _ => by omega, fun _ => h1⟩
  · constructor
    · intro h99
      rw [h1] at h99
      exact absurd h99 (by decide)
    · intro hpos
      rw [h2] at hpos
      exact absurd hpos (by decide)

/-! ## The order of the actions in a pass -/

theorem applyAll_sample (s : State) (tv : Nat) :
    applyAll s (sampleEvents s tv) = acSense s tv := by
  unfold sampleEvents acSense
  by_cases h : tv ≠ s.last_timer_val
  · rw [if_pos h, if_pos h]
    rfl
  · rw [if_neg h, if_neg h]
    rfl

theorem applyAll_ramp (s : State) : applyAll s (rampEvents s) = rampStep s := by
  unfold rampEvents rampStep
  split_ifs <;> rfl

theorem applyAll_age (s : State) : applyAll s (ageEvents s) = ageTimeout s := by
  unfold ageEvents
  by_cases hz : s.ac_sense_timeout = 0
  · rw [if_neg (by simpa using hz), ageTimeout_idle s hz]
    rfl
  · rw [if_pos hz]
    by_cases hw : wrap16 (s.ac_sense_timeout - 1) = 0
    · rw [if_pos hw, ageTimeout_expire s hz hw, hw]
      rfl
    · rw [if_neg hw, ageTimeout_count s hz hw]
      rfl

theorem pwmLevels_append (a b : List Event) :
    pwmLevels (a ++ b) = pwmLevels a ++ pwmLevels b := by
  induction a with
  | nil => rfl
  | cons e rest ih =>
    cases e <;> simp [pwmLevels, ih]

theorem pwmLevels_map (ls : List Nat) : pwmLevels (ls.map Event.pwm) = ls := by
  induction ls with
  | nil => rfl
  | cons l rest ih => simp [pwmLevels, ih]

theorem applyAll_append (s : State) (a b : List Event) :
    applyAll s (a ++ b) = applyAll (applyAll s a) b := by
  simp [applyAll, List.foldl_append]

theorem applyAll_map_pwm (ls : List Nat) (s : State) :
    applyAll s (ls.map Event.pwm) = s := by
  induction ls with
  | nil => rfl
  | cons l rest ih => exact ih

theorem muteEvents_spec (s : State) (m : Bool) :
    applyAll s (muteEvents s m) = (muteStep s m).1 ∧
    pwmLevels (muteEvents s m) = (muteStep s m).2 := by
  unfold muteEvents muteStep
  by_cases hg : m = true ∧ s.set_brightness ≠ 0
  · rw [if_pos hg, if_pos hg]
    by_cases hc : s.muting_counter = 0
    · rw [if_pos hc, if_pos hc]
      constructor
      · show applyAll s (mutingEffect.map Event.pwm ++ [Event.wrMuting 300]) = _
        rw [applyAll_append, applyAll_map_pwm]
        rfl
      · show pwmLevels (mutingEffect.map Event.pwm ++ [Event.wrMuting 300]) = _
        rw [pwmLevels_append, pwmLevels_map]
        simp [pwmLevels]
    · rw [if_neg hc, if_neg hc]
      exact ⟨rfl, rfl⟩
  · rw [if_neg hg, if_neg hg]
    exact ⟨rfl, rfl⟩

theorem pwmLevels_sample (s : State) (tv : Nat) : pwmLevels (sampleEvents s tv) = [] := by
  unfold sampleEvents
  split_ifs <;> rfl

theorem pwmLevels_ramp (s : State) : pwmLevels (rampEvents s) = [] := by
  unfold rampEvents
  split_ifs <;> rfl

theorem pwmLevels_age (s : State) : pwmLevels (ageEvents s) = [] := by
  unfold ageEvents
  split_ifs <;> rfl

/-- The action sequence of a pass and `loopBody` agree on the final variables and
on the frames emitted. -/
theorem passEvents_loopBody (s : State) (i : Input) :
    passEvents s i =
      sampleEvents s i.timer_val ++ Event.pwm s.led_brightness ::
        (rampEvents (acSense s i.timer_val) ++ ageEvents (rampStep (acSense s i.timer_val)) ++
          muteEvents (ageTimeout (rampStep (acSense s i.timer_val))) i.muting_on) ∧
    applyAll s (passEvents s i) = (loopBody s i).1 ∧
    pwmLevels (passEvents s i) = (loopBody s i).2 := by
  have hshape : passEvents s i =
      sampleEvents s i.timer_val ++ Event.pwm s.led_brightness ::
        (rampEvents (acSense s i.timer_val) ++ ageEvents (rampStep (acSense s i.timer_val)) ++
          muteEvents (ageTimeout (rampStep (acSense s i.timer_val))) i.muting_on) := by
    simp only [passEvents, applyAll_sample, applyAll_ramp, applyAll_age, acSense_led]
  obtain ⟨m1, m2⟩ := muteEvents_spec (ageTimeout (rampStep (acSense s i.timer_val))) i.muting_on
  refine ⟨hshape, ?_, ?_⟩
  · rw [hshape, applyAll_append, applyAll_sample]
    show applyAll (acSense s i.timer_val) (_ ++ _ ++ _) = _
    rw [applyAll_append, applyAll_append, applyAll_ramp, applyAll_age, m1]
    rfl
  · rw [hshape, pwmLevels_append, pwmLevels_sample]
    show s.led_brightness :: pwmLevels (_ ++ _ ++ _) = _
    rw [pwmLevels_append, pwmLevels_append, pwmLevels_ramp, pwmLevels_age, m2]
    show _ = (acSense s i.timer_val).led_brightness :: _
    rw [acSense_led]
    rfl

theorem sampleEvents_eq (s : State) (tv : Nat) :
    sampleEvents s tv =
      Event.readTimer tv ::
        (if tv ≠ s.last_timer_val then
          [Event.wrLast tv, Event.wrSet 99, Event.wrTimeout 10]
        else []) := rfl

theorem sampleEvents_only (s : State) (tv : Nat) :
    ∀ e ∈ sampleEvents s tv,
      e = Event.readTimer tv ∨ e = Event.wrLast tv ∨ e = Event.wrSet 99 ∨
        e = Event.wrTimeout 10 := by
  intro e he
  rw [sampleEvents_eq] at he
  by_cases h : tv ≠ s.last_timer_val
  · rw [if_pos h] at he
    simpa using he
  · rw [if_neg h] at he
    simp only [List.mem_singleton] at he
    exact Or.inl he

theorem pinWrites_one (bri : Nat) : pinWrites [bri] = bitbang_pwm_cycle bri := by
  cases h : bitbang_pwm_cycle bri with
  | none => simp [pinWrites, h]
  | some ws => simp [pinWrites, h]

/-- Claim C17: in every pass the actions before the first call of
`bitbang_pwm_cycle` are the read of the counter and, on a change, the assignments
of the reading to `last_timer_val`, 99 to `set_brightness` and 10 to
`ac_sense_timeout`, and nothing else; that first call gets the brightness held at
the start of the pass, so the first frame is `bitbang_pwm_cycle` of that value;
the ramp step, the timeout countdown and the muting block follow it, in this
order. -/
theorem emission_order (s : State) (i : Input) :
    ∃ before after : List Event,
      passEvents s i = before ++ Event.pwm s.led_brightness :: after ∧
      before = Event.readTimer i.timer_val ::
        (if i.timer_val ≠ s.last_timer_val then
          [Event.wrLast i.timer_val, Event.wrSet 99, Event.wrTimeout 10]
        else []) ∧
      (∀ e ∈ before, e = Event.readTimer i.timer_val ∨ e = Event.wrLast i.timer_val ∨
        e = Event.wrSet 99 ∨ e = Event.wrTimeout 10) ∧
      pwmLevels before = [] ∧
      applyAll s before = acSense s i.timer_val ∧
      (i.timer_val ≠ s.last_timer_val →
        (applyAll s before).set_brightness = 99 ∧
        (applyAll s before).ac_sense_timeout = 10) ∧
      after = rampEvents (acSense s i.timer_val) ++
        ageEvents (rampStep (acSense s i.timer_val)) ++
        muteEvents (ageTimeout (rampStep (acSense s i.timer_val))) i.muting_on ∧
      (loopBody s i).2.head? = some s.led_brightness ∧
      pinWrites [s.led_brightness] = bitbang_pwm_cycle s.led_brightness ∧
      applyAll s (passEvents s i) = (loopBody s i).1 ∧
      pwmLevels (passEvents s i) = (loopBody s i).2 := by
  obtain ⟨h1, h2, h3⟩ := passEvents_loopBody s i
  refine ⟨sampleEvents s i.timer_val, _, h1, sampleEvents_eq s _, sampleEvents_only s _,
    pwmLevels_sample s _, applyAll_sample s _, ?_, rfl, ?_, pinWrites_one _, h2, h3⟩
  · intro hd
    rw [applyAll_sample, acSense_detect s _ hd]
    exact ⟨rfl, rfl⟩
  · show some (acSense s i.timer_val).led_brightness = _
    rw [acSense_led]

end Spec1Led
